import Mathlib

/-!
# ProjectTest: a priority thread pool (Task / ThreadPool)

A shallow embedding of `src/task.cpp` and `src/threadpool.cpp`.

* A `Task` object is a record of its private members.  The callable body
  `std::function<void()>` is represented by what a call of it does to its
  caller: it returns, or it throws (`Body`, `Exn`).
* `steady_clock::now()` readings are arguments of `execute`; a `time_point`
  is a count of nanosecond ticks held in a signed 64-bit integer, the default
  constructed one is the epoch `0`.  Differences of tick counts wrap around
  at 64 bits (`wrapInt64`).
* Qt signals are recorded in the order of emission (`TaskSignal`,
  `PoolSignal`), `qWarning()` lines are returned next to the new state.
* `std::shared_ptr<Task>` is an `Option Handle`: `none` is the null pointer,
  `some h` points to the task object `heap h`.
* A worker thread is a `Worker` (its place in the loop) that moves by
  `workerStep`; calls and steps are taken one after the other, each on the
  state the one before left.  `thread->wait()` in `cleanup` is a call that
  returns; the threads waited for are listed next to the new state.
-/

namespace ProjectTest

/-! ## task.h -/

/-- Enum `Task::Priority`, in declaration order. -/
inductive Priority where
  | Low
  | Normal
  | High
deriving DecidableEq, Repr

/-- Enum `Task::Status`, in declaration order. -/
inductive Status where
  | Created
  | Queued
  | Running
  | Completed
  | Failed
deriving DecidableEq, Repr

/-- The value of `static_cast<int>(priority)`. -/
def Priority.toInt : Priority → Int
  | .Low => 0
  | .Normal => 1
  | .High => 2

/-- What a `catch` clause can tell about a thrown object: it derives from
`std::exception` and has a `what()` text, or it is anything else. -/
inductive Exn where
  | stdException (what : String)
  | other
deriving DecidableEq, Repr

/-- How a call of a `void()` callable ends. -/
inductive CallResult where
  | returned
  | threw (e : Exn)
deriving DecidableEq, Repr

/-- A non-empty `std::function<void()>`: the result of calling it. -/
structure Body where
  call : CallResult
deriving DecidableEq, Repr

/-- Signals of class `Task`. -/
inductive TaskSignal where
  | started
  | finished
  | failed (error : String)
deriving DecidableEq, Repr

/-- Private members of class `Task`.  `m_function = none` is the empty
`std::function`. -/
structure Task where
  m_function : Option Body
  m_priority : Priority
  m_status : Status
  m_errorMessage : String
  m_startTime : Int
  m_endTime : Int
deriving DecidableEq

namespace Task

/-! ## task.cpp -/

/-- Constructor `Task::Task(QObject *parent)`. -/
def mk0 : Task :=
  { m_function := none, m_priority := .Normal, m_status := .Created,
    m_errorMessage := "", m_startTime := 0, m_endTime := 0 }

/-- Constructor `Task::Task(function, priority, parent)`. -/
def mk2 (function : Option Body) (priority : Priority) : Task :=
  { m_function := function, m_priority := priority, m_status := .Created,
    m_errorMessage := "", m_startTime := 0, m_endTime := 0 }

/-- Method `Task::setFunction`: the new object and the warnings logged. -/
def setFunction (t : Task) (function : Option Body) : Task × List String :=
  if t.m_status ≠ .Created then
    (t, ["Cannot set function after task has been queued or started"])
  else
    ({ t with m_function := function }, [])

/-- Method `Task::setPriority`: the new object and the warnings logged. -/
def setPriority (t : Task) (priority : Priority) : Task × List String :=
  if t.m_status ≠ .Created then
    (t, ["Cannot change priority after task has been queued or started"])
  else
    ({ t with m_priority := priority }, [])

/-- Method `Task::priority`. -/
def priority (t : Task) : Priority := t.m_priority

/-- Method `Task::status`. -/
def status (t : Task) : Status := t.m_status

/-- Method `Task::errorMessage`. -/
def errorMessage (t : Task) : String := t.m_errorMessage

/-- Ticks of `steady_clock` per millisecond (the clock counts nanoseconds). -/
def ticksPerMillisecond : Int := 1000000

/-- The value a signed 64-bit integer holds for the exact result `x` of an
operation: `x` itself between `-2^63` and `2^63 - 1`, wrapped around
otherwise. -/
def wrapInt64 (x : Int) : Int :=
  (x + 9223372036854775808) % 18446744073709551616 - 9223372036854775808

/-- Method `Task::executionTime`: `m_endTime - m_startTime` is a subtraction of
two 64-bit tick counts, and `duration_cast<milliseconds>` truncates toward
zero. -/
def executionTime (t : Task) : Int :=
  if t.m_status ≠ .Completed ∧ t.m_status ≠ .Failed then
    0
  else
    Int.tdiv (wrapInt64 (t.m_endTime - t.m_startTime)) ticksPerMillisecond

/-- Method `Task::setStatus`. -/
def setStatus (t : Task) (status : Status) : Task :=
  if t.m_status ≠ status then { t with m_status := status } else t

/-- Method `Task::setErrorMessage`. -/
def setErrorMessage (t : Task) (message : String) : Task :=
  { t with m_errorMessage := message }

/-- Result of a call of `Task::execute`: the object afterwards, the signals
emitted in order, and the exception that left the call, if any. -/
structure ExecResult where
  task : Task
  signals : List TaskSignal
  raised : Option Exn
deriving DecidableEq

/-- Method `Task::execute`.  `now₁` is the clock reading taken before the body is
called, `now₂` the reading taken after it returned or threw. -/
def execute (t : Task) (now₁ now₂ : Int) : ExecResult :=
  match t.m_function with
  | none =>
    let t := t.setErrorMessage "No function set for task"
    let t := t.setStatus .Failed
    { task := t, signals := [.failed t.m_errorMessage], raised := none }
  | some f =>
    -- try
    let t := t.setStatus .Running
    let sigs := [TaskSignal.started]
    let t := { t with m_startTime := now₁ }
    match f.call with
    | .returned =>
      let t := { t with m_endTime := now₂ }
      let t := t.setStatus .Completed
      { task := t, signals := sigs ++ [.finished], raised := none }
    | .threw (.stdException what) =>
      -- catch (const std::exception& e)
      let t := { t with m_endTime := now₂ }
      let t := t.setErrorMessage what
      let t := t.setStatus .Failed
      { task := t, signals := sigs ++ [.failed t.m_errorMessage], raised := none }
    | .threw .other =>
      -- catch (...)
      let t := { t with m_endTime := now₂ }
      let t := t.setErrorMessage "Unknown error occurred"
      let t := t.setStatus .Failed
      { task := t, signals := sigs ++ [.failed t.m_errorMessage], raised := none }

/-- The statements of `Task::execute` on a task with a body, in the order in
which one call runs them: `enter` is `setStatus(Status::Running); emit
started();`, `start` is `m_startTime = now()`, and `leave` is what follows the
call of the body, in the `try` block or in the `catch` clause the body's
result selects. -/
inductive ExecStmt where
  | enter
  | start (now : Int)
  | leave (now : Int)
deriving DecidableEq, Repr

/-- The task object after one statement of a call of `Task::execute`. -/
def stmt (t : Task) : ExecStmt → Task
  | .enter => t.setStatus .Running
  | .start now => { t with m_startTime := now }
  | .leave now =>
    match t.m_function with
    | none => t
    | some f =>
      match f.call with
      | .returned =>
        let t := { t with m_endTime := now }
        t.setStatus .Completed
      | .threw (.stdException what) =>
        let t := { t with m_endTime := now }
        let t := t.setErrorMessage what
        t.setStatus .Failed
      | .threw .other =>
        let t := { t with m_endTime := now }
        let t := t.setErrorMessage "Unknown error occurred"
        t.setStatus .Failed

/-- The task object after a sequence of statements, which may come from
several calls of `Task::execute` on the same object that run at the same
time. -/
def stmts (t : Task) : List ExecStmt → Task
  | [] => t
  | st :: rest => stmts (t.stmt st) rest

end Task

/-! ## threadpool.h -/

/-- A non-null `std::shared_ptr<Task>`: the identity of a task object. -/
abbrev Handle := Nat

/-- Signals of class `ThreadPool`. -/
inductive PoolSignal where
  | errorOccurred (error : String)
  | taskCompleted (task : Handle)
  | taskFailed (task : Handle) (error : String)
deriving DecidableEq, Repr

/-- Calls made on the `QWaitCondition m_condition`. -/
inductive CondCall where
  | wakeOne
  | wakeAll
deriving DecidableEq, Repr

/-- Members of class `ThreadPool`, the task objects its handles point to
(`heap`), and the record of what it emitted (`emitted`) and of the calls it
made on its wait condition (`m_condition`). -/
structure ThreadPool where
  heap : Handle → Task
  m_threads : List Nat
  m_taskQueue : List Handle
  m_condition : List CondCall
  m_running : Bool
  m_activeThreads : Int
  m_lastError : String
  emitted : List PoolSignal

/-! ## threadpool.cpp -/

/-- The loop of `std::max_element` after its first step: `largest` is the
position of the greatest element seen so far and `x` its value, `first` is the
position of the head of the remaining range. -/
def max_elementLoop {α : Type} (comp : α → α → Bool) :
    List α → Nat → α → Nat → Nat
  | [], largest, _, _ => largest
  | y :: ys, largest, x, first =>
    if comp x y then max_elementLoop comp ys first y (first + 1)
    else max_elementLoop comp ys largest x (first + 1)

/-- Function `std::max_element(begin, end, comp)` as a position in the list; the
position `xs.length` is `end()`. -/
def max_element {α : Type} (comp : α → α → Bool) (xs : List α) : Nat :=
  match xs with
  | [] => xs.length
  | x :: rest => max_elementLoop comp rest 0 x 1

namespace ThreadPool

/-- Method `ThreadPool::setError`. -/
def setError (p : ThreadPool) (error : String) : ThreadPool :=
  { p with m_lastError := error, emitted := p.emitted ++ [.errorOccurred error] }

/-- The comparison passed to `std::max_element` in `getNextTask`. -/
def priorityLess (p : ThreadPool) (a b : Handle) : Bool :=
  decide ((p.heap a).priority.toInt < (p.heap b).priority.toInt)

/-- Method `ThreadPool::getNextTask`: the returned pointer and the pool afterwards.
`QList::removeOne` removes the first entry equal to its argument. -/
def getNextTask (p : ThreadPool) : Option Handle × ThreadPool :=
  if p.m_taskQueue.isEmpty then (none, p)
  else
    let it := max_element p.priorityLess p.m_taskQueue
    if it ≠ p.m_taskQueue.length then
      match p.m_taskQueue[it]? with
      | some task => (some task, { p with m_taskQueue := p.m_taskQueue.erase task })
      | none => (none, p)
    else (none, p)

/-- Method `ThreadPool::addTask`: the returned flag and the pool afterwards. -/
def addTask (p : ThreadPool) (task : Option Handle) : Bool × ThreadPool :=
  match task with
  | none => (false, p.setError "Cannot add null task")
  | some h =>
    if !p.m_running then (false, p.setError "ThreadPool is not running")
    else
      let p := { p with heap := Function.update p.heap h ((p.heap h).setStatus .Queued) }
      let p := { p with m_taskQueue := p.m_taskQueue ++ [h] }
      let p := { p with m_condition := p.m_condition ++ [.wakeOne] }
      (true, p)

/-- Method `ThreadPool::pendingTasks`.  The size of a Qt container is within
the range of `int`. -/
def pendingTasks (p : ThreadPool) : Int := p.m_taskQueue.length

/-- Method `ThreadPool::isRunning`. -/
def isRunning (p : ThreadPool) : Bool := p.m_running

/-- Method `ThreadPool::threadCount`.  The size of a Qt container is within
the range of `int`. -/
def threadCount (p : ThreadPool) : Int := p.m_threads.length

/-- The executing step of the worker loop in `ThreadPool::initialize`
(`if (task) ...`): the pool afterwards and the signals the task emitted. -/
def workerExecute (p : ThreadPool) (task : Option Handle) (now₁ now₂ : Int) :
    ThreadPool × List TaskSignal :=
  match task with
  | none => (p, [])
  | some h =>
    let p := { p with m_activeThreads := p.m_activeThreads + 1 }
    -- try
    let r := (p.heap h).execute now₁ now₂
    let p := { p with heap := Function.update p.heap h r.task }
    let p :=
      match r.raised with
      | none => { p with emitted := p.emitted ++ [PoolSignal.taskCompleted h] }
      | some (.stdException what) => { p with emitted := p.emitted ++ [PoolSignal.taskFailed h what] }
      | some .other => { p with emitted := p.emitted ++ [PoolSignal.taskFailed h "Unknown error occurred"] }
    ({ p with m_activeThreads := p.m_activeThreads - 1 }, r.signals)

/-- The submission loops of `main`: `addTask` for each pointer in turn. -/
def submitAll (p : ThreadPool) : List (Option Handle) → ThreadPool
  | [] => p
  | task :: rest => submitAll (p.addTask task).2 rest

/-- Claims with `getNextTask` until it returns the null pointer, at most `fuel`
times: the tasks claimed, in order, and the pool afterwards. -/
def claimAll : Nat → ThreadPool → List Handle × ThreadPool
  | 0, p => ([], p)
  | fuel + 1, p =>
    match p.getNextTask with
    | (none, p₁) => ([], p₁)
    | (some task, p₁) => (task :: (claimAll fuel p₁).1, (claimAll fuel p₁).2)

end ThreadPool

/-! ## The operations that write a task's status -/

/-- Position of a status in `Created → Queued → Running → {Completed | Failed}`. -/
def Status.rank : Status → Nat
  | .Created => 0
  | .Queued => 1
  | .Running => 2
  | .Completed => 3
  | .Failed => 3

/-- A step that leaves the status unchanged or moves it strictly forward. -/
def Status.forward (a b : Status) : Prop := a = b ∨ a.rank < b.rank

instance Status.decidableForward (a b : Status) : Decidable (Status.forward a b) :=
  inferInstanceAs (Decidable (a = b ∨ a.rank < b.rank))

/-- A call that can change a task: `setFunction`, `setPriority`, `execute`
(with its two clock readings), and `addTask` with a pointer to the task. -/
inductive TaskOp where
  | setFunction (function : Option Body)
  | setPriority (priority : Priority)
  | execute (now₁ now₂ : Int)
  | addTask
deriving DecidableEq

namespace ThreadPool

/-- The pool and its task objects after a call of `op` on the task `h`. -/
def applyOp (p : ThreadPool) (h : Handle) : TaskOp → ThreadPool
  | .setFunction f =>
    { p with heap := Function.update p.heap h ((p.heap h).setFunction f).1 }
  | .setPriority pr =>
    { p with heap := Function.update p.heap h ((p.heap h).setPriority pr).1 }
  | .execute now₁ now₂ =>
    { p with heap := Function.update p.heap h ((p.heap h).execute now₁ now₂).task }
  | .addTask => (p.addTask (some h)).2

/-- The status of task `h` before the first call and after each call of a
sequence of calls. -/
def statusTrace (p : ThreadPool) (h : Handle) : List TaskOp → List Status
  | [] => [(p.heap h).status]
  | op :: ops => (p.heap h).status :: statusTrace (p.applyOp h op) h ops

/-- A sequence of calls that submits the task only while it is `Created` or
`Queued` and executes it only while it is not yet `Completed` or `Failed`. -/
def usedOnce (p : ThreadPool) (h : Handle) : List TaskOp → Bool
  | [] => true
  | op :: ops =>
    (match op with
      | .addTask => decide ((p.heap h).status = .Created ∨ (p.heap h).status = .Queued)
      | .execute _ _ =>
        decide ((p.heap h).status ≠ .Completed ∧ (p.heap h).status ≠ .Failed)
      | _ => true)
    && usedOnce (p.applyOp h op) h ops

end ThreadPool

/-! ## Construction, shutdown and the worker loop -/

namespace ThreadPool

/-- Method `ThreadPool::initialize` (the word is reserved, hence the longer
name).  The thread created in round `i` of the loop is the thread handle `i`;
each thread runs the worker loop (`Worker`, `workerStep`). -/
def initializeThreads (p : ThreadPool) (numThreads : Int) : ThreadPool :=
  if numThreads ≤ 0 then p.setError "Invalid number of threads"
  else
    (List.range numThreads.toNat).foldl
      (fun p i => { p with m_threads := p.m_threads ++ [i] }) p

/-- Constructor `ThreadPool::ThreadPool(numThreads, parent)`, with the task
objects `heap` that exist next to the pool. -/
def mk1 (heap : Handle → Task) (numThreads : Int) : ThreadPool :=
  initializeThreads
    { heap := heap, m_threads := [], m_taskQueue := [], m_condition := [],
      m_running := true, m_activeThreads := 0, m_lastError := "", emitted := [] }
    numThreads

/-- Method `ThreadPool::cleanup`: the pool afterwards and the threads it waited
for and deleted, in order.  A call of `thread->wait()` blocks the caller and
writes no member of the pool. -/
def cleanup (p : ThreadPool) : ThreadPool × List Nat :=
  let p := { p with m_running := false }
  let p := { p with m_condition := p.m_condition ++ [CondCall.wakeAll] }
  let joined := p.m_threads
  let p := { p with m_threads := [] }
  let p := { p with m_taskQueue := [] }
  (p, joined)

/-- Method `ThreadPool::stop`. -/
def stop (p : ThreadPool) : ThreadPool × List Nat := p.cleanup

end ThreadPool

/-- Where a worker thread is in the loop that `ThreadPool::initialize` connects
to `QThread::started`: about to test `while (m_running)`, blocked in
`m_condition.wait`, holding a claimed task before `if (task)`, or out of the
loop. -/
inductive Worker where
  | loopHead
  | waiting
  | executing (task : Handle)
  | exited
deriving DecidableEq, Repr

namespace ThreadPool

/-- The locked block of the worker loop from the test of the inner `while` on:
the worker blocks, leaves the loop, or calls `getNextTask`. -/
def workerWait (p : ThreadPool) : Worker × ThreadPool :=
  if p.m_running && p.m_taskQueue.isEmpty then (.waiting, p)
  else if !p.m_running then (.exited, p)
  else
    match p.getNextTask with
    | (some task, p₁) => (.executing task, p₁)
    | (none, p₁) => (.loopHead, p₁)

/-- One step of a worker, with no other thread running in between: from the
head of the loop or from a return of `wait` up to the point where it blocks,
holds a task or leaves the loop; from a claimed task through the executing
step back to the head of the loop. -/
def workerStep (p : ThreadPool) (w : Worker) (now₁ now₂ : Int) : Worker × ThreadPool :=
  match w with
  | .loopHead => if p.m_running then p.workerWait else (.exited, p)
  | .waiting => p.workerWait
  | .executing task => (.loopHead, (p.workerExecute (some task) now₁ now₂).1)
  | .exited => (.exited, p)

/-- The pool and its task objects after a sequence of calls on the task `h`. -/
def runOps (p : ThreadPool) (h : Handle) : List TaskOp → ThreadPool
  | [] => p
  | op :: ops => runOps (p.applyOp h op) h ops

end ThreadPool

/-- The readings of `steady_clock::now()` taken by a sequence of calls, in the
order in which they are taken. -/
def clockReadings : List TaskOp → List Int
  | [] => []
  | .execute now₁ now₂ :: ops => now₁ :: now₂ :: clockReadings ops
  | _ :: ops => clockReadings ops

/-- A clock that never runs backwards: no reading is less than the one
before. -/
def nonDecreasing : List Int → Bool
  | a :: b :: rest => decide (a ≤ b) && nonDecreasing (b :: rest)
  | _ => true

/-- Every execution of a sequence of calls ends less than `2^63` ticks after
it started, so that the 64-bit subtraction of its two readings is exact. -/
def readingsFit : List TaskOp → Bool
  | [] => true
  | .execute now₁ now₂ :: ops =>
    decide (now₂ - now₁ < 9223372036854775808) && readingsFit ops
  | _ :: ops => readingsFit ops

/-! ## Submissions, claims and completions -/

/-- A pool together with the tasks that workers have claimed and not yet
finished executing. -/
structure World where
  pool : ThreadPool
  inFlight : List Handle

/-- What can happen to a pool: a submitter calls `addTask`, a worker claims
with `getNextTask`, a worker runs the executing step for a task it holds. -/
inductive PoolEvent where
  | submit (task : Option Handle)
  | claim
  | complete (task : Handle) (now₁ now₂ : Int)
deriving DecidableEq

namespace World

/-- The pending and the in-flight task handles. -/
def held (w : World) : List Handle := w.pool.m_taskQueue ++ w.inFlight

/-- The world after one event. -/
def step (w : World) : PoolEvent → World
  | .submit task => { w with pool := (w.pool.addTask task).2 }
  | .claim =>
    match w.pool.getNextTask with
    | (some task, p₁) => { pool := p₁, inFlight := w.inFlight ++ [task] }
    | (none, p₁) => { w with pool := p₁ }
  | .complete task now₁ now₂ =>
    if task ∈ w.inFlight then
      { pool := (w.pool.workerExecute (some task) now₁ now₂).1,
        inFlight := w.inFlight.erase task }
    else w

/-- The world after a sequence of events. -/
def run (w : World) : List PoolEvent → World
  | [] => w
  | e :: es => run (w.step e) es

/-- A sequence of events in which no task is submitted while it is pending or
in flight. -/
def submitsFresh (w : World) : List PoolEvent → Bool
  | [] => true
  | e :: es =>
    (match e with
      | .submit (some h) => decide (h ∉ w.held)
      | _ => true)
    && submitsFresh (w.step e) es

end World

/-! ## Example inputs -/

/-- The pool right after `ThreadPool pool(n)` with the task objects `heap`:
`n` worker handles, nothing queued, nothing emitted. -/
def examplePool (heap : Handle → Task) (n : Nat) : ThreadPool :=
  { heap := heap, m_threads := List.range n, m_taskQueue := [], m_condition := [],
    m_running := true, m_activeThreads := 0, m_lastError := "", emitted := [] }

/-- The eleven tasks of `main`: handles 0 to 2 are `High`, 3 to 7 `Normal`,
the others `Low`; the second `High` task throws. -/
def mainHeap : Handle → Task := fun h =>
  if h = 1 then
    Task.mk2 (some ⟨.threw (.stdException "Simulated error in high priority task")⟩) .High
  else if h < 3 then Task.mk2 (some ⟨.returned⟩) .High
  else if h < 8 then Task.mk2 (some ⟨.returned⟩) .Normal
  else Task.mk2 (some ⟨.returned⟩) .Low

/-- A queue with a `Low`, a `High`, a `Normal` and a second `High` entry. -/
def exampleQueue : ThreadPool :=
  { examplePool mainHeap 1 with m_taskQueue := [8, 0, 3, 2] }

/-- The pool of `main` after the throwing `High` task (handle 1) was
submitted, claimed by a worker and run by the worker's executing step with
the clock readings 0 and 5: the pool and the signals of the task. -/
def failingRun : ThreadPool × List TaskSignal :=
  (((examplePool mainHeap 1).addTask (some 1)).2.getNextTask).2.workerExecute
    (((examplePool mainHeap 1).addTask (some 1)).2.getNextTask).1 0 5

/-- A task that is submitted, executed, and submitted again. -/
def resubmission : List TaskOp := [.addTask, .execute 0 5, .addTask]

/-- A task whose setters are called before and after it is submitted and
executed once. -/
def singleUse : List TaskOp :=
  [.setPriority .High, .addTask, .setFunction none, .execute 0 5, .setPriority .Low]

/-- A queue in which the `High` task 0 is pending twice. -/
def duplicateQueue : ThreadPool :=
  { examplePool mainHeap 2 with m_taskQueue := [8, 0, 3, 0] }

/-- The pool of `main` with two workers after three tasks were submitted and
`stop()` was called. -/
def stoppedPool : ThreadPool :=
  ((examplePool mainHeap 2).submitAll [some 8, some 0, some 3]).stop.1

/-- A task that is executed twice, the second time after it was submitted
again, with the clock readings 10, 25000010, 30000000 and 31000000. -/
def executedTwice : List TaskOp :=
  [.addTask, .execute 10 25000010, .addTask, .execute 30000000 31000000]

/-- The statements of two calls of `execute` on one task, by the workers A and
B, that run at the same time: B enters, A enters, A reads the clock at tick 10,
A's body returns and A leaves at tick 15, B reads the clock at tick
20000000. -/
def overlappingCalls : List Task.ExecStmt :=
  [.enter, .enter, .start 10, .leave 15, .start 20000000]

/-- The same task is submitted twice and then claimed by two workers. -/
def doubleSubmission : List PoolEvent :=
  [.submit (some 0), .submit (some 0), .claim, .claim]

/-- Three tasks are submitted, two are claimed, one of them completes and is
then submitted again. -/
def freshSubmissions : List PoolEvent :=
  [.submit (some 8), .submit (some 0), .submit (some 3), .claim, .claim,
    .complete 0 0 5, .submit (some 0)]

/-- The queue `[8, 0, 3, 2]` at the moment `cleanup` has written
`m_running = false`. -/
def shutdownSignalled : ThreadPool :=
  { exampleQueue with m_running := false }

/-! ## Selection of the greatest element -/

/-- The loop of `max_element` keeps the position of the first greatest
element of the part of the list it has seen. -/
theorem max_elementLoop_first_greatest {α : Type} (k : α → Int) (comp : α → α → Bool)
    (hcomp : ∀ a b, comp a b = decide (k a < k b)) :
    ∀ (ys pre : List α) (largest : Nat) (x : α),
      pre[largest]? = some x →
      (∀ u ∈ pre, k u ≤ k x) →
      (∀ j u, j < largest → pre[j]? = some u → k u < k x) →
      ∃ m, (pre ++ ys)[max_elementLoop comp ys largest x pre.length]? = some m ∧
        (∀ u ∈ pre ++ ys, k u ≤ k m) ∧
        (∀ j u, j < max_elementLoop comp ys largest x pre.length →
          (pre ++ ys)[j]? = some u → k u < k m) := by
  intro ys
  induction ys with
  | nil =>
    intro pre largest x hx hall hfirst
    refine ⟨x, ?_, ?_, ?_⟩
    · simpa [max_elementLoop] using hx
    · simpa using hall
    · intro j u hj hu
      simp only [max_elementLoop] at hj
      simp only [List.append_nil] at hu
      exact hfirst j u hj hu
  | cons y ys ih =>
    intro pre largest x hx hall hfirst
    have hlt : largest < pre.length := by
      rcases List.getElem?_eq_some.1 hx with ⟨h, _⟩
      exact h
    have hlen : (pre ++ [y]).length = pre.length + 1 := by simp
    have happ : pre ++ y :: ys = (pre ++ [y]) ++ ys := by simp
    by_cases hc : k x < k y
    · have hstep : max_elementLoop comp (y :: ys) largest x pre.length
          = max_elementLoop comp ys pre.length y (pre ++ [y]).length := by
        simp [max_elementLoop, hcomp, hc]
      rw [hstep, happ]
      apply ih (pre ++ [y]) pre.length y
      · simp
      · intro u hu
        rcases List.mem_append.1 hu with h | h
        · exact le_of_lt (lt_of_le_of_lt (hall u h) hc)
        · simp at h; subst h; exact le_refl _
      · intro j u hj hu
        rw [List.getElem?_append_left hj] at hu
        exact lt_of_le_of_lt (hall u (List.getElem?_mem hu)) hc
    · have hstep : max_elementLoop comp (y :: ys) largest x pre.length
          = max_elementLoop comp ys largest x (pre ++ [y]).length := by
        simp [max_elementLoop, hcomp, hc]
      rw [hstep, happ]
      apply ih (pre ++ [y]) largest x
      · rw [List.getElem?_append_left hlt]; exact hx
      · intro u hu
        rcases List.mem_append.1 hu with h | h
        · exact hall u h
        · simp at h; subst h; exact not_lt.1 hc
      · intro j u hj hu
        rw [List.getElem?_append_left (lt_trans hj hlt)] at hu
        exact hfirst j u hj hu

/-- On a non-empty list `max_element` returns the position of the first
greatest element. -/
theorem max_element_first_greatest {α : Type} (k : α → Int) (comp : α → α → Bool)
    (hcomp : ∀ a b, comp a b = decide (k a < k b)) (xs : List α) (hne : xs ≠ []) :
    ∃ m, xs[max_element comp xs]? = some m ∧ (∀ u ∈ xs, k u ≤ k m) ∧
      (∀ j u, j < max_element comp xs → xs[j]? = some u → k u < k m) := by
  cases xs with
  | nil => exact absurd rfl hne
  | cons x rest =>
    have h := max_elementLoop_first_greatest k comp hcomp rest [x] 0 x (by simp)
      (by intro u hu; simp at hu; subst hu; exact le_refl _)
      (by intro j u hj; exact absurd hj (Nat.not_lt_zero j))
    simpa [max_element] using h

/-- Removing the first entry equal to `a` removes position `i` when `a` is at
position `i` and at no earlier one. -/
theorem erase_eq_eraseIdx_of_first {α : Type} [DecidableEq α] (a : α) :
    ∀ (xs : List α) (i : Nat), xs[i]? = some a → (∀ j, j < i → xs[j]? ≠ some a) →
      xs.erase a = xs.eraseIdx i := by
  intro xs
  induction xs with
  | nil => intro i h; simp at h
  | cons x xs ih =>
    intro i h hfirst
    cases i with
    | zero =>
      simp at h
      subst h
      simp
    | succ i =>
      have hx : x ≠ a := by
        intro hxa
        exact hfirst 0 (Nat.succ_pos i) (by simp [hxa])
      have hrec : xs.erase a = xs.eraseIdx i := by
        apply ih i
        · simpa using h
        · intro j hj
          have := hfirst (j + 1) (Nat.succ_lt_succ hj)
          simpa using this
      simp [List.erase_cons, hx, hrec]

/-! ## getNextTask -/

/-- The priority of the task a handle points to, as `getNextTask` compares it. -/
theorem priorityLess_eq (p : ThreadPool) (a b : Handle) :
    p.priorityLess a b
      = decide ((p.heap a).priority.toInt < (p.heap b).priority.toInt) := rfl

/-- On a non-empty queue `getNextTask` returns the entry at the first position
of greatest priority and removes that position. -/
theorem getNextTask_of_ne_nil (p : ThreadPool) (hne : p.m_taskQueue ≠ []) :
    ∃ t, p.m_taskQueue[max_element p.priorityLess p.m_taskQueue]? = some t ∧
      (∀ u ∈ p.m_taskQueue, (p.heap u).priority.toInt ≤ (p.heap t).priority.toInt) ∧
      (∀ j u, j < max_element p.priorityLess p.m_taskQueue → p.m_taskQueue[j]? = some u →
        (p.heap u).priority.toInt < (p.heap t).priority.toInt) ∧
      p.getNextTask = (some t,
        { p with
          m_taskQueue := p.m_taskQueue.eraseIdx (max_element p.priorityLess p.m_taskQueue) }) := by
  obtain ⟨t, hget, hmax, hfirst⟩ := max_element_first_greatest
    (fun h => (p.heap h).priority.toInt) p.priorityLess (priorityLess_eq p) p.m_taskQueue hne
  refine ⟨t, hget, hmax, hfirst, ?_⟩
  have hlt : max_element p.priorityLess p.m_taskQueue < p.m_taskQueue.length := by
    rcases List.getElem?_eq_some.1 hget with ⟨h, _⟩
    exact h
  have herase : p.m_taskQueue.erase t
      = p.m_taskQueue.eraseIdx (max_element p.priorityLess p.m_taskQueue) := by
    apply erase_eq_eraseIdx_of_first t _ _ hget
    intro j hj hjt
    exact lt_irrefl _ (hfirst j t hj hjt)
  have hemp : p.m_taskQueue.isEmpty = false := by
    cases hq : p.m_taskQueue with
    | nil => exact absurd hq hne
    | cons a l => rfl
  unfold ThreadPool.getNextTask
  simp only [hemp, Bool.false_eq_true, if_false, ne_eq, Nat.ne_of_lt hlt, not_false_eq_true,
    if_true, hget, herase]

/-- On an empty queue `getNextTask` returns the null pointer and changes
nothing. -/
theorem getNextTask_of_nil (p : ThreadPool) (hq : p.m_taskQueue = []) :
    p.getNextTask = (none, p) := by
  unfold ThreadPool.getNextTask
  simp [hq]

/-- C1: on an empty queue `getNextTask` returns the null pointer and leaves the
pool as it is; on a non-empty queue it returns an entry `t` of the queue whose
priority is at least that of every pending task, and the pool afterwards
differs only in its queue, which is the old queue without one position that
held `t`. -/
theorem getNextTask_returns_highest (p : ThreadPool) :
    (p.m_taskQueue = [] → p.getNextTask = (none, p)) ∧
    (p.m_taskQueue ≠ [] → ∃ t i,
      p.getNextTask.1 = some t ∧
      p.m_taskQueue[i]? = some t ∧
      (∀ u ∈ p.m_taskQueue, (p.heap t).priority.toInt ≥ (p.heap u).priority.toInt) ∧
      p.getNextTask.2 = { p with m_taskQueue := p.m_taskQueue.eraseIdx i } ∧
      p.getNextTask.2.m_taskQueue.length + 1 = p.m_taskQueue.length) := by
  refine ⟨getNextTask_of_nil p, ?_⟩
  intro hne
  obtain ⟨t, hget, hmax, _, heq⟩ := getNextTask_of_ne_nil p hne
  refine ⟨t, _, ?_, hget, hmax, ?_, ?_⟩
  · rw [heq]
  · rw [heq]
  · have hlt : max_element p.priorityLess p.m_taskQueue < p.m_taskQueue.length := by
      rcases List.getElem?_eq_some.1 hget with ⟨h, _⟩
      exact h
    rw [heq]
    simp only [List.length_eraseIdx, hlt, if_true]
    omega

/-- C1 at the queue `[8, 0, 3, 2]` (Low, High, Normal, High). -/
theorem getNextTask_returns_highest_witness :
    exampleQueue.getNextTask.1 = some 0 ∧
    exampleQueue.getNextTask.2.m_taskQueue = [8, 3, 2] ∧
    ((exampleQueue.m_taskQueue = [] → exampleQueue.getNextTask = (none, exampleQueue)) ∧
    (exampleQueue.m_taskQueue ≠ [] → ∃ t i,
      exampleQueue.getNextTask.1 = some t ∧
      exampleQueue.m_taskQueue[i]? = some t ∧
      (∀ u ∈ exampleQueue.m_taskQueue,
        (exampleQueue.heap t).priority.toInt ≥ (exampleQueue.heap u).priority.toInt) ∧
      exampleQueue.getNextTask.2
        = { exampleQueue with m_taskQueue := exampleQueue.m_taskQueue.eraseIdx i } ∧
      exampleQueue.getNextTask.2.m_taskQueue.length + 1 = exampleQueue.m_taskQueue.length)) :=
  ⟨by decide, by decide, getNextTask_returns_highest exampleQueue⟩

/-! ## Submitting and claiming -/

/-- Method `setStatus` writes the status and nothing else. -/
theorem setStatus_eq (t : Task) (s : Status) : t.setStatus s = { t with m_status := s } := by
  unfold Task.setStatus
  by_cases h : t.m_status = s
  · subst h; simp
  · simp [h]

/-- An accepted `addTask`: the pool afterwards. -/
theorem addTask_running (p : ThreadPool) (h : Handle) (hrun : p.m_running = true) :
    p.addTask (some h) = (true,
      { p with
        heap := Function.update p.heap h { p.heap h with m_status := .Queued }
        m_taskQueue := p.m_taskQueue ++ [h]
        m_condition := p.m_condition ++ [.wakeOne] }) := by
  simp [ThreadPool.addTask, hrun, setStatus_eq]

/-- Submitting to a running pool appends the handles to the queue in order,
keeps the pool running and keeps every priority. -/
theorem submitAll_running (hs : List Handle) :
    ∀ p : ThreadPool, p.m_running = true →
      (p.submitAll (hs.map some)).m_taskQueue = p.m_taskQueue ++ hs ∧
      (p.submitAll (hs.map some)).m_running = true ∧
      ∀ h, ((p.submitAll (hs.map some)).heap h).priority = (p.heap h).priority := by
  induction hs with
  | nil => intro p hrun; simp [ThreadPool.submitAll, hrun]
  | cons a hs ih =>
    intro p hrun
    simp only [List.map_cons, ThreadPool.submitAll, addTask_running p a hrun]
    obtain ⟨hq, hr, hp⟩ := ih
      { p with
        heap := Function.update p.heap a { p.heap a with m_status := .Queued }
        m_taskQueue := p.m_taskQueue ++ [a]
        m_condition := p.m_condition ++ [.wakeOne] } hrun
    refine ⟨by simpa using hq, hr, ?_⟩
    intro h
    rw [hp h]
    by_cases hha : h = a
    · subst hha; simp [Task.priority]
    · simp [Function.update, hha]

/-- Claiming until the queue is empty takes the pending handles out in
non-increasing order of priority and leaves the task objects alone. -/
theorem claimAll_sorted : ∀ (fuel : Nat) (p : ThreadPool), p.m_taskQueue.length ≤ fuel →
    (p.claimAll fuel).2.m_taskQueue = [] ∧
    (p.claimAll fuel).2.heap = p.heap ∧
    List.Perm (p.claimAll fuel).1 p.m_taskQueue ∧
    List.Pairwise (fun a b => (p.heap b).priority.toInt ≤ (p.heap a).priority.toInt)
      (p.claimAll fuel).1 := by
  intro fuel
  induction fuel with
  | zero =>
    intro p hlen
    have hq : p.m_taskQueue = [] := List.length_eq_zero.1 (Nat.le_zero.1 hlen)
    simp [ThreadPool.claimAll, hq]
  | succ fuel ih =>
    intro p hlen
    by_cases hq : p.m_taskQueue = []
    · simp [ThreadPool.claimAll, getNextTask_of_nil p hq, hq]
    · obtain ⟨t, hget, hmax, hfirst, heq⟩ := getNextTask_of_ne_nil p hq
      have hlt : max_element p.priorityLess p.m_taskQueue < p.m_taskQueue.length := by
        rcases List.getElem?_eq_some.1 hget with ⟨h, _⟩
        exact h
      have hmem : t ∈ p.m_taskQueue := List.getElem?_mem hget
      have herase : p.m_taskQueue.erase t
          = p.m_taskQueue.eraseIdx (max_element p.priorityLess p.m_taskQueue) := by
        apply erase_eq_eraseIdx_of_first t _ _ hget
        intro j hj hjt
        exact lt_irrefl _ (hfirst j t hj hjt)
      obtain ⟨h1, h2, h3, h4⟩ := ih
        { p with
          m_taskQueue := p.m_taskQueue.eraseIdx (max_element p.priorityLess p.m_taskQueue) }
        (by simp only [List.length_eraseIdx, hlt, if_true]; omega)
      simp only [ThreadPool.claimAll, heq]
      refine ⟨h1, h2, ?_, ?_⟩
      · have hperm : List.Perm (t :: p.m_taskQueue.erase t) p.m_taskQueue :=
          (List.perm_cons_erase hmem).symm
        rw [herase] at hperm
        exact (List.Perm.cons t h3).trans hperm
      · refine List.Pairwise.cons ?_ h4
        intro b hb
        have hb1 : b ∈ p.m_taskQueue.eraseIdx (max_element p.priorityLess p.m_taskQueue) :=
          h3.subset hb
        exact hmax b (List.mem_of_mem_eraseIdx hb1)

/-- A list of priorities in non-increasing order with three `High`, five
`Normal` and three `Low` entries. -/
theorem sorted_priorities_eq (l : List Priority)
    (hsorted : l.Pairwise (fun a b => b.toInt ≤ a.toInt))
    (hH : l.count .High = 3) (hN : l.count .Normal = 5) (hL : l.count .Low = 3) :
    l = [.High, .High, .High, .Normal, .Normal, .Normal, .Normal, .Normal, .Low, .Low, .Low] := by
  haveI : IsAntisymm Priority (fun a b => b.toInt ≤ a.toInt) :=
    ⟨by intro a b h1 h2; cases a <;> cases b <;> simp [Priority.toInt] at h1 h2 ⊢⟩
  refine List.eq_of_perm_of_sorted ?_ hsorted (by decide)
  rw [List.perm_iff_count]
  intro a
  cases a
  · rw [hL]; decide
  · rw [hN]; decide
  · rw [hH]; decide

/-- C2: when a list of tasks is submitted to a running pool with an empty queue
and `getNextTask` is then called until the queue is empty, the tasks claimed
are a permutation of the tasks submitted, every task is claimed before all
tasks of strictly lower priority, and the priorities are the ones the tasks had
when submitted; with three `High`, five `Normal` and three `Low` tasks the
first three claimed are `High`, the next five `Normal`, the last three `Low`. -/
theorem claims_in_priority_order (p : ThreadPool) (hs : List Handle) (fuel : Nat)
    (hrun : p.m_running = true) (hq : p.m_taskQueue = []) (hfuel : hs.length ≤ fuel) :
    ((p.submitAll (hs.map some)).claimAll fuel).2.m_taskQueue = [] ∧
    List.Perm ((p.submitAll (hs.map some)).claimAll fuel).1 hs ∧
    List.Pairwise (fun a b => (p.heap a).priority.toInt ≥ (p.heap b).priority.toInt)
      ((p.submitAll (hs.map some)).claimAll fuel).1 ∧
    (∀ h, (((p.submitAll (hs.map some)).claimAll fuel).2.heap h).priority
      = (p.heap h).priority) ∧
    ((hs.map (fun h => (p.heap h).priority)).count .High = 3 →
      (hs.map (fun h => (p.heap h).priority)).count .Normal = 5 →
      (hs.map (fun h => (p.heap h).priority)).count .Low = 3 →
      ((p.submitAll (hs.map some)).claimAll fuel).1.map (fun h => (p.heap h).priority)
        = [.High, .High, .High, .Normal, .Normal, .Normal, .Normal, .Normal,
            .Low, .Low, .Low]) := by
  obtain ⟨hsq, _, hsp⟩ := submitAll_running hs p hrun
  rw [hq, List.nil_append] at hsq
  obtain ⟨h1, h2, h3, h4⟩ := claimAll_sorted fuel (p.submitAll (hs.map some))
    (by rw [hsq]; exact hfuel)
  rw [hsq] at h3
  have h5 : List.Pairwise (fun a b => (p.heap a).priority.toInt ≥ (p.heap b).priority.toInt)
      ((p.submitAll (hs.map some)).claimAll fuel).1 := by
    refine h4.imp ?_
    intro a b hab
    rw [hsp a, hsp b] at hab
    exact hab
  refine ⟨h1, h3, h5, ?_, ?_⟩
  · intro h
    rw [h2, hsp h]
  · intro hH hN hL
    apply sorted_priorities_eq
    · rw [List.pairwise_map]
      exact h5
    · rw [(h3.map _).count_eq]; exact hH
    · rw [(h3.map _).count_eq]; exact hN
    · rw [(h3.map _).count_eq]; exact hL

/-- C2 at the eleven tasks of `main`, submitted in a mixed order to a pool
with one worker: the three `High` tasks 0, 1, 2 are claimed first, then the
five `Normal` tasks 3 to 7, then the three `Low` tasks 8, 9, 10. -/
theorem claims_in_priority_order_witness :
    (((examplePool mainHeap 1).submitAll
      ([8, 3, 0, 4, 9, 1, 5, 6, 2, 7, 10].map some)).claimAll 11).1
      = [0, 1, 2, 3, 4, 5, 6, 7, 8, 9, 10] ∧
    (((examplePool mainHeap 1).submitAll
      ([8, 3, 0, 4, 9, 1, 5, 6, 2, 7, 10].map some)).claimAll 11).1.map
        (fun h => ((examplePool mainHeap 1).heap h).priority)
      = [.High, .High, .High, .Normal, .Normal, .Normal, .Normal, .Normal,
          .Low, .Low, .Low] :=
  ⟨by decide,
   (claims_in_priority_order (examplePool mainHeap 1) [8, 3, 0, 4, 9, 1, 5, 6, 2, 7, 10] 11
      rfl rfl (by decide)).2.2.2.2 (by decide) (by decide) (by decide)⟩

/-! ## Task::execute -/

/-- What `execute` does to a task without a body. -/
theorem execute_of_none (t : Task) (now₁ now₂ : Int) (hf : t.m_function = none) :
    t.execute now₁ now₂ =
      { task := { t with m_status := .Failed, m_errorMessage := "No function set for task" }
        signals := [.failed "No function set for task"]
        raised := none } := by
  unfold Task.execute
  rw [hf]
  simp [setStatus_eq, Task.setErrorMessage, hf]

/-- What `execute` does when the body returns. -/
theorem execute_of_returned (t : Task) (f : Body) (now₁ now₂ : Int)
    (hf : t.m_function = some f) (hc : f.call = .returned) :
    t.execute now₁ now₂ =
      { task := { t with m_status := .Completed, m_startTime := now₁, m_endTime := now₂ }
        signals := [.started, .finished]
        raised := none } := by
  obtain ⟨c⟩ := f
  simp only at hc
  subst hc
  unfold Task.execute
  rw [hf]
  simp [setStatus_eq, hf]

/-- What `execute` does when the body throws a `std::exception`. -/
theorem execute_of_stdException (t : Task) (f : Body) (what : String) (now₁ now₂ : Int)
    (hf : t.m_function = some f) (hc : f.call = .threw (.stdException what)) :
    t.execute now₁ now₂ =
      { task := { t with
          m_status := .Failed, m_errorMessage := what, m_startTime := now₁, m_endTime := now₂ }
        signals := [.started, .failed what]
        raised := none } := by
  obtain ⟨c⟩ := f
  simp only at hc
  subst hc
  unfold Task.execute
  rw [hf]
  simp [setStatus_eq, Task.setErrorMessage, hf]

/-- What `execute` does when the body throws something that is not a
`std::exception`. -/
theorem execute_of_other (t : Task) (f : Body) (now₁ now₂ : Int)
    (hf : t.m_function = some f) (hc : f.call = .threw .other) :
    t.execute now₁ now₂ =
      { task := { t with
          m_status := .Failed, m_errorMessage := "Unknown error occurred",
          m_startTime := now₁, m_endTime := now₂ }
        signals := [.started, .failed "Unknown error occurred"]
        raised := none } := by
  obtain ⟨c⟩ := f
  simp only at hc
  subst hc
  unfold Task.execute
  rw [hf]
  simp [setStatus_eq, Task.setErrorMessage, hf]

/-- C3: for a task with a body, whatever the body does (return, throw a
`std::exception`, throw anything else), `execute` lets no exception out, and the
status afterwards is `Completed` or `Failed`, not `Created`, `Queued` or
`Running`; it is `Completed` exactly when the body returned. -/
theorem execute_ends_completed_or_failed (t : Task) (f : Body) (now₁ now₂ : Int)
    (hf : t.m_function = some f) :
    (t.execute now₁ now₂).raised = none ∧
    ((t.execute now₁ now₂).task.status = .Completed ∨
      (t.execute now₁ now₂).task.status = .Failed) ∧
    (t.execute now₁ now₂).task.status ≠ .Created ∧
    (t.execute now₁ now₂).task.status ≠ .Queued ∧
    (t.execute now₁ now₂).task.status ≠ .Running ∧
    ((t.execute now₁ now₂).task.status = .Completed ↔ f.call = .returned) := by
  rcases hc : f.call with _ | e
  · rw [execute_of_returned t f now₁ now₂ hf hc]
    simp [Task.status]
  · cases e with
    | stdException what =>
      rw [execute_of_stdException t f what now₁ now₂ hf hc]
      simp [Task.status]
    | other =>
      rw [execute_of_other t f now₁ now₂ hf hc]
      simp [Task.status]

/-- C3 at the throwing `High` task of `main`. -/
theorem execute_ends_completed_or_failed_witness :
    ((mainHeap 1).execute 0 5).raised = none ∧
    (((mainHeap 1).execute 0 5).task.status = .Completed ∨
      ((mainHeap 1).execute 0 5).task.status = .Failed) ∧
    ((mainHeap 1).execute 0 5).task.status ≠ .Created ∧
    ((mainHeap 1).execute 0 5).task.status ≠ .Queued ∧
    ((mainHeap 1).execute 0 5).task.status ≠ .Running ∧
    (((mainHeap 1).execute 0 5).task.status = .Completed ↔
      (Body.mk (.threw (.stdException "Simulated error in high priority task"))).call
        = .returned) :=
  execute_ends_completed_or_failed (mainHeap 1)
    ⟨.threw (.stdException "Simulated error in high priority task")⟩ 0 5 rfl

/-- C8: for a task without a body `execute` ends in `Failed` with the message
"No function set for task", emits the one signal `failed` with that message
(no `started`, no `finished`), lets no exception out and writes no other
member, the timestamps included; if the two timestamps are equal, as they are
in a task that never ran, `executionTime` is 0 afterwards. -/
theorem execute_without_body (t : Task) (now₁ now₂ : Int) (hf : t.m_function = none) :
    (t.execute now₁ now₂).task.status = .Failed ∧
    (t.execute now₁ now₂).task.errorMessage = "No function set for task" ∧
    (t.execute now₁ now₂).signals = [.failed "No function set for task"] ∧
    (t.execute now₁ now₂).raised = none ∧
    (t.execute now₁ now₂).task
      = { t with m_status := .Failed, m_errorMessage := "No function set for task" } ∧
    (t.execute now₁ now₂).task.m_startTime = t.m_startTime ∧
    (t.execute now₁ now₂).task.m_endTime = t.m_endTime ∧
    (t.m_endTime = t.m_startTime → (t.execute now₁ now₂).task.executionTime = 0) := by
  rw [execute_of_none t now₁ now₂ hf]
  simp only [Task.status, Task.errorMessage, Task.executionTime, true_and]
  intro h
  simp [h, Task.wrapInt64]

/-- C8 at the task built by `std::make_shared<Task>()`. -/
theorem execute_without_body_witness :
    (Task.mk0.execute 3 4).task.status = .Failed ∧
    (Task.mk0.execute 3 4).task.errorMessage = "No function set for task" ∧
    (Task.mk0.execute 3 4).signals = [.failed "No function set for task"] ∧
    (Task.mk0.execute 3 4).raised = none ∧
    (Task.mk0.execute 3 4).task
      = { Task.mk0 with m_status := .Failed, m_errorMessage := "No function set for task" } ∧
    (Task.mk0.execute 3 4).task.m_startTime = Task.mk0.m_startTime ∧
    (Task.mk0.execute 3 4).task.m_endTime = Task.mk0.m_endTime ∧
    (Task.mk0.m_endTime = Task.mk0.m_startTime → (Task.mk0.execute 3 4).task.executionTime = 0) :=
  execute_without_body Task.mk0 3 4 rfl

/-- C9: when the body throws, `execute` writes the end timestamp, ends in
`Failed`, and emits `started` and then the one signal `failed` carrying
`errorMessage()`, and no `finished`; `errorMessage()` is `what()` for a
`std::exception` and "Unknown error occurred" for anything else. -/
theorem execute_body_throws (t : Task) (f : Body) (e : Exn) (now₁ now₂ : Int)
    (hf : t.m_function = some f) (hc : f.call = .threw e) :
    (t.execute now₁ now₂).task.m_endTime = now₂ ∧
    (t.execute now₁ now₂).task.status = .Failed ∧
    (t.execute now₁ now₂).signals
      = [.started, .failed (t.execute now₁ now₂).task.errorMessage] ∧
    (t.execute now₁ now₂).task.errorMessage
      = (match e with
        | .stdException what => what
        | .other => "Unknown error occurred") := by
  cases e with
  | stdException what =>
    rw [execute_of_stdException t f what now₁ now₂ hf hc]
    simp [Task.status, Task.errorMessage]
  | other =>
    rw [execute_of_other t f now₁ now₂ hf hc]
    simp [Task.status, Task.errorMessage]

/-- C9 at the throwing `High` task of `main`. -/
theorem execute_body_throws_witness :
    ((mainHeap 1).execute 0 5).task.m_endTime = 5 ∧
    ((mainHeap 1).execute 0 5).task.status = .Failed ∧
    ((mainHeap 1).execute 0 5).signals
      = [.started, .failed ((mainHeap 1).execute 0 5).task.errorMessage] ∧
    ((mainHeap 1).execute 0 5).task.errorMessage
      = "Simulated error in high priority task" :=
  execute_body_throws (mainHeap 1)
    ⟨.threw (.stdException "Simulated error in high priority task")⟩
    (.stdException "Simulated error in high priority task") 0 5 rfl rfl

/-! ## Setters and the status written by each call -/

/-- The setters do not write the status. -/
theorem setters_keep_status (t : Task) (f : Option Body) (pr : Priority) :
    (t.setFunction f).1.m_status = t.m_status ∧ (t.setPriority pr).1.m_status = t.m_status := by
  unfold Task.setFunction Task.setPriority
  by_cases h : t.m_status = .Created <;> simp [h]

/-- The status after `execute` is `Completed` or `Failed`; body and priority
are the ones before. -/
theorem execute_frame (t : Task) (now₁ now₂ : Int) :
    ((t.execute now₁ now₂).task.m_status = .Completed ∨
      (t.execute now₁ now₂).task.m_status = .Failed) ∧
    (t.execute now₁ now₂).task.m_function = t.m_function ∧
    (t.execute now₁ now₂).task.m_priority = t.m_priority := by
  rcases hf : t.m_function with _ | f
  · rw [execute_of_none t now₁ now₂ hf]
    simp [hf]
  · rcases hc : f.call with _ | e
    · rw [execute_of_returned t f now₁ now₂ hf hc]
      simp [hf]
    · cases e with
      | stdException what =>
        rw [execute_of_stdException t f what now₁ now₂ hf hc]
        simp [hf]
      | other =>
        rw [execute_of_other t f now₁ now₂ hf hc]
        simp [hf]

/-- What `addTask` does to the task it is given: nothing when it rejects the
task, and it writes the status `Queued` when it accepts it. -/
theorem addTask_heap (p : ThreadPool) (h : Handle) :
    (p.addTask (some h)).2.heap h
      = if p.m_running = true then { p.heap h with m_status := .Queued } else p.heap h := by
  by_cases hrun : p.m_running = true
  · rw [addTask_running p h hrun]
    simp [hrun]
  · have hrun2 : p.m_running = false := by simpa using hrun
    simp [ThreadPool.addTask, hrun2, ThreadPool.setError]

/-- C10: on a task whose status is not `Created`, `setFunction` and
`setPriority` change no member (body, priority, status, error message,
timestamps); on a task in `Created`, `setPriority(p)` writes the priority, so
that `priority()` is `p`, and `setFunction(f)` writes the body, and neither
writes another member.  No call (`setFunction`, `setPriority`, `execute`,
`addTask`) on a task that has left `Created` changes its body or priority or
takes it back to `Created`. -/
theorem setters_only_while_created (t : Task) (f : Option Body) (pr : Priority) :
    (t.status ≠ .Created → (t.setFunction f).1 = t ∧ (t.setPriority pr).1 = t) ∧
    (t.status = .Created →
      (t.setPriority pr).1 = { t with m_priority := pr } ∧
      (t.setPriority pr).1.priority = pr ∧
      (t.setFunction f).1 = { t with m_function := f }) ∧
    (∀ (p : ThreadPool) (h : Handle) (op : TaskOp), (p.heap h).status ≠ .Created →
      ((p.applyOp h op).heap h).m_function = (p.heap h).m_function ∧
      ((p.applyOp h op).heap h).m_priority = (p.heap h).m_priority ∧
      ((p.applyOp h op).heap h).status ≠ .Created) := by
  refine ⟨?_, ?_, ?_⟩
  · intro h
    simp only [Task.status] at h
    simp [Task.setFunction, Task.setPriority, h]
  · intro h
    simp only [Task.status] at h
    simp [Task.setFunction, Task.setPriority, Task.priority, h]
  · intro p h op hs
    simp only [Task.status] at hs ⊢
    cases op with
    | setFunction g => simp [ThreadPool.applyOp, Task.setFunction, hs]
    | setPriority q => simp [ThreadPool.applyOp, Task.setPriority, hs]
    | execute a b =>
      obtain ⟨h1, h2, h3⟩ := execute_frame (p.heap h) a b
      simp only [ThreadPool.applyOp, Function.update_same]
      refine ⟨h2, h3, ?_⟩
      rcases h1 with h1 | h1 <;> rw [h1] <;> decide
    | addTask =>
      simp only [ThreadPool.applyOp, addTask_heap]
      by_cases hrun : p.m_running = true <;> simp [hrun, hs]

/-- C10 at the second task of `main`, before and after it is submitted. -/
theorem setters_only_while_created_witness :
    ((mainHeap 1).setPriority .Low).1.priority = .Low ∧
    ((mainHeap 1).setFunction none).1.m_function = none ∧
    (((examplePool mainHeap 1).addTask (some 1)).2.heap 1).status = .Queued ∧
    ((((examplePool mainHeap 1).addTask (some 1)).2.heap 1).setPriority .Low).1.priority
      = .High ∧
    ((((examplePool mainHeap 1).addTask (some 1)).2.heap 1).setFunction none).1
      = ((examplePool mainHeap 1).addTask (some 1)).2.heap 1 :=
  ⟨((setters_only_while_created (mainHeap 1) none .Low).2.1 rfl).2.1,
   by decide, by decide, by decide,
   ((setters_only_while_created (((examplePool mainHeap 1).addTask (some 1)).2.heap 1)
      none .Low).1 (by decide)).1⟩

/-! ## addTask -/

/-- C5: `addTask` returns `false` exactly when the pointer is null or the pool
is not running; a rejected call emits the one signal `errorOccurred` (and
stores its text in `m_lastError`) and changes nothing else: the queue, its
size and every task object, the status of the rejected task included, are as
before. -/
theorem addTask_rejects (p : ThreadPool) (task : Option Handle) :
    ((p.addTask task).1 = false ↔ (task = none ∨ p.m_running = false)) ∧
    ((p.addTask task).1 = false →
      (∃ msg, (p.addTask task).2
          = { p with m_lastError := msg, emitted := p.emitted ++ [.errorOccurred msg] }) ∧
      (∃ msg, (p.addTask task).2.emitted = p.emitted ++ [.errorOccurred msg]) ∧
      (p.addTask task).2.m_taskQueue = p.m_taskQueue ∧
      (p.addTask task).2.pendingTasks = p.pendingTasks ∧
      (p.addTask task).2.heap = p.heap ∧
      (∀ h, task = some h → ((p.addTask task).2.heap h).status = (p.heap h).status)) := by
  cases task with
  | none =>
    simp only [ThreadPool.addTask, ThreadPool.setError, ThreadPool.pendingTasks, true_or,
      iff_true, forall_true_left, and_true, true_and]
    exact ⟨⟨_, rfl⟩, ⟨_, rfl⟩, by intro h hh; cases hh⟩
  | some h =>
    by_cases hrun : p.m_running = true
    · rw [addTask_running p h hrun]
      simp [hrun]
    · have hrun2 : p.m_running = false := by simpa using hrun
      simp only [ThreadPool.addTask, hrun2, ThreadPool.setError, ThreadPool.pendingTasks,
        Bool.not_false, if_true, or_true, iff_true, forall_true_left, and_true, true_and]
      exact ⟨⟨_, rfl⟩, ⟨_, rfl⟩, by intro h1 _; trivial⟩

/-- C5 at the null pointer, given to the pool of `main`. -/
theorem addTask_rejects_witness :
    ((examplePool mainHeap 1).addTask none).1 = false ∧
    ((examplePool mainHeap 1).addTask none).2.emitted = [.errorOccurred "Cannot add null task"] ∧
    ((examplePool mainHeap 1).addTask none).2.pendingTasks = 0 ∧
    ((examplePool mainHeap 1).addTask none).2.heap = (examplePool mainHeap 1).heap :=
  ⟨by decide, by decide, by decide,
   ((addTask_rejects (examplePool mainHeap 1) none).2 (by decide)).2.2.2.2.1⟩

/-- C6: on a running pool `addTask` with a non-null pointer returns `true`,
writes the status `Queued` into the task, appends the pointer to the queue
(the earlier entries stay, `pendingTasks()` grows by one), calls `wakeOne` on
the wait condition once and nothing else on it, emits no signal, and changes
no other task object. -/
theorem addTask_accepts (p : ThreadPool) (h : Handle) (hrun : p.m_running = true) :
    (p.addTask (some h)).1 = true ∧
    ((p.addTask (some h)).2.heap h).status = .Queued ∧
    (p.addTask (some h)).2.heap h = { p.heap h with m_status := .Queued } ∧
    (p.addTask (some h)).2.m_taskQueue = p.m_taskQueue ++ [h] ∧
    (p.addTask (some h)).2.pendingTasks = p.pendingTasks + 1 ∧
    (p.addTask (some h)).2.m_condition = p.m_condition ++ [.wakeOne] ∧
    (p.addTask (some h)).2.emitted = p.emitted ∧
    (p.addTask (some h)).2.m_lastError = p.m_lastError ∧
    (∀ h₁, h₁ ≠ h → (p.addTask (some h)).2.heap h₁ = p.heap h₁) := by
  rw [addTask_running p h hrun]
  simp only [ThreadPool.pendingTasks, Task.status, Function.update_same, List.length_append,
    List.length_singleton, Nat.cast_add, Nat.cast_one, true_and]
  intro h₁ hne
  simp [Function.update, hne]

/-- C6 at the first task of `main`, submitted after a `Low` task. -/
theorem addTask_accepts_witness :
    (((examplePool mainHeap 1).addTask (some 8)).2.addTask (some 0)).1 = true ∧
    ((((examplePool mainHeap 1).addTask (some 8)).2.addTask (some 0)).2.heap 0).status
      = .Queued ∧
    (((examplePool mainHeap 1).addTask (some 8)).2.addTask (some 0)).2.m_taskQueue = [8, 0] ∧
    (((examplePool mainHeap 1).addTask (some 8)).2.addTask (some 0)).2.pendingTasks = 2 ∧
    (((examplePool mainHeap 1).addTask (some 8)).2.addTask (some 0)).2.m_condition
      = ((examplePool mainHeap 1).addTask (some 8)).2.m_condition ++ [.wakeOne] ∧
    (((examplePool mainHeap 1).addTask (some 8)).2.addTask (some 0)).2.emitted = [] :=
  ⟨(addTask_accepts ((examplePool mainHeap 1).addTask (some 8)).2 0 (by decide)).1,
   by decide, by decide, by decide,
   (addTask_accepts ((examplePool mainHeap 1).addTask (some 8)).2 0 (by decide)).2.2.2.2.2.1,
   by decide⟩

/-! ## The worker's executing step -/

/-- C4, evaluated at the throwing `High` task of `main` (handle 1): the task
ends in `Failed` with the message of the exception and emits `failed` itself,
but the one signal the worker emits for it is `taskCompleted`, and no
`taskFailed`. -/
theorem worker_emits_taskCompleted_for_failed_task :
    (failingRun.1.heap 1).status = .Failed ∧
    (failingRun.1.heap 1).errorMessage = "Simulated error in high priority task" ∧
    failingRun.2 = [.started, .failed "Simulated error in high priority task"] ∧
    failingRun.1.emitted = [.taskCompleted 1] ∧
    PoolSignal.taskFailed 1 "Simulated error in high priority task" ∉ failingRun.1.emitted := by
  decide

/-! ## The status along a sequence of calls -/

/-- The status trace starts with the current status. -/
theorem statusTrace_head (p : ThreadPool) (h : Handle) (ops : List TaskOp) :
    (p.statusTrace h ops).head? = some (p.heap h).status := by
  cases ops <;> rfl

/-- One call moves the status forward or leaves it, provided the task is
submitted only while `Created` or `Queued` and executed only while not yet
`Completed` or `Failed`. -/
theorem applyOp_forward (p : ThreadPool) (h : Handle) (op : TaskOp)
    (hadd : op = .addTask → (p.heap h).status = .Created ∨ (p.heap h).status = .Queued)
    (hexe : ∀ a b, op = .execute a b →
      (p.heap h).status ≠ .Completed ∧ (p.heap h).status ≠ .Failed) :
    Status.forward (p.heap h).status ((p.applyOp h op).heap h).status := by
  unfold Status.forward
  simp only [Task.status] at *
  cases op with
  | setFunction g =>
    left
    simp [ThreadPool.applyOp, (setters_keep_status (p.heap h) g .Low).1]
  | setPriority q =>
    left
    simp [ThreadPool.applyOp, (setters_keep_status (p.heap h) none q).2]
  | execute a b =>
    obtain ⟨h1, h2⟩ := hexe a b rfl
    obtain ⟨h3, _⟩ := execute_frame (p.heap h) a b
    simp only [ThreadPool.applyOp, Function.update_same]
    right
    rcases h3 with h3 | h3 <;> rw [h3] <;>
      cases hs : (p.heap h).m_status <;> simp_all [Status.rank]
  | addTask =>
    simp only [ThreadPool.applyOp, addTask_heap]
    by_cases hrun : p.m_running = true
    · rcases hadd rfl with h1 | h1 <;> simp [hrun, h1, Status.rank]
    · simp [hrun]

/-- C7 fails as stated: a task of `main` that is submitted, executed and
submitted again goes `Created`, `Queued`, `Completed` and then back to
`Queued`, which is not a forward step. -/
theorem status_reentered_on_resubmission :
    (examplePool mainHeap 1).statusTrace 0 resubmission
      = [.Created, .Queued, .Completed, .Queued] ∧
    ¬ Status.forward .Completed .Queued ∧
    ¬ List.Chain' Status.forward ((examplePool mainHeap 1).statusTrace 0 resubmission) := by
  have h1 : (examplePool mainHeap 1).statusTrace 0 resubmission
      = [.Created, .Queued, .Completed, .Queued] := by decide
  have h2 : ¬ Status.forward .Completed .Queued := by decide
  refine ⟨h1, h2, ?_⟩
  rw [h1]
  intro hc
  simp only [List.chain'_cons] at hc
  exact h2 hc.2.2.1

/-- C7, amended: along every sequence of `setFunction`, `setPriority`,
`execute` and `addTask` calls that submits the task only while it is `Created`
or `Queued` and executes it only while it is not yet `Completed` or `Failed`,
each call leaves the status unchanged or moves it strictly forward in
`Created → Queued → Running → {Completed | Failed}`. -/
theorem status_forward_when_used_once (h : Handle) (ops : List TaskOp) :
    ∀ p : ThreadPool, p.usedOnce h ops = true →
      List.Chain' Status.forward (p.statusTrace h ops) := by
  induction ops with
  | nil => intro p _; simp [ThreadPool.statusTrace]
  | cons op ops ih =>
    intro p hused
    simp only [ThreadPool.usedOnce, Bool.and_eq_true] at hused
    obtain ⟨hop, hrest⟩ := hused
    simp only [ThreadPool.statusTrace]
    rw [List.chain'_cons']
    refine ⟨?_, ih _ hrest⟩
    intro y hy
    rw [statusTrace_head] at hy
    cases hy
    apply applyOp_forward
    · intro hadd
      subst hadd
      simpa using hop
    · intro a b hexe
      subst hexe
      simpa using hop

/-- C7, amended, at a task whose setters are called before and after it is
submitted and executed once. -/
theorem status_forward_when_used_once_witness :
    (examplePool mainHeap 1).statusTrace 3 singleUse
      = [.Created, .Created, .Queued, .Queued, .Completed, .Completed] ∧
    List.Chain' Status.forward ((examplePool mainHeap 1).statusTrace 3 singleUse) :=
  ⟨by decide, status_forward_when_used_once 3 singleUse (examplePool mainHeap 1) (by decide)⟩

/-! ## Task::executionTime -/

/-- The setters do not write the timestamps. -/
theorem setters_keep_times (t : Task) (f : Option Body) (pr : Priority) :
    (t.setFunction f).1.m_startTime = t.m_startTime ∧
    (t.setFunction f).1.m_endTime = t.m_endTime ∧
    (t.setPriority pr).1.m_startTime = t.m_startTime ∧
    (t.setPriority pr).1.m_endTime = t.m_endTime := by
  unfold Task.setFunction Task.setPriority
  by_cases h : t.m_status = .Created <;> simp [h]

/-- After `execute` the start timestamp is not later than the end timestamp,
if it was not before and the clock did not run backwards during the call. -/
theorem execute_times (t : Task) (now₁ now₂ : Int) (ht : t.m_startTime ≤ t.m_endTime)
    (hclock : now₁ ≤ now₂) :
    (t.execute now₁ now₂).task.m_startTime ≤ (t.execute now₁ now₂).task.m_endTime := by
  rcases hf : t.m_function with _ | f
  · rw [execute_of_none t now₁ now₂ hf]
    exact ht
  · rcases hc : f.call with _ | e
    · rw [execute_of_returned t f now₁ now₂ hf hc]
      exact hclock
    · cases e with
      | stdException what =>
        rw [execute_of_stdException t f what now₁ now₂ hf hc]
        exact hclock
      | other =>
        rw [execute_of_other t f now₁ now₂ hf hc]
        exact hclock

/-- Successive readings of a clock that never runs backwards. -/
theorem nonDecreasing_cons_cons (a b : Int) (rest : List Int)
    (h : nonDecreasing (a :: b :: rest) = true) :
    a ≤ b ∧ nonDecreasing (b :: rest) = true := by
  simpa [nonDecreasing] using h

/-- Dropping the first reading keeps a clock non-decreasing. -/
theorem nonDecreasing_tail (a : Int) (rest : List Int)
    (h : nonDecreasing (a :: rest) = true) : nonDecreasing rest = true := by
  cases rest with
  | nil => rfl
  | cons b rest => exact (nonDecreasing_cons_cons a b rest h).2

/-- Along a sequence of calls under a clock that never runs backwards the
start timestamp of the task stays not later than its end timestamp. -/
theorem runOps_times (h : Handle) (ops : List TaskOp) :
    ∀ p : ThreadPool, (p.heap h).m_startTime ≤ (p.heap h).m_endTime →
      nonDecreasing (clockReadings ops) = true →
      ((p.runOps h ops).heap h).m_startTime ≤ ((p.runOps h ops).heap h).m_endTime := by
  induction ops with
  | nil => intro p ht _; exact ht
  | cons op ops ih =>
    intro p ht hclock
    simp only [ThreadPool.runOps]
    cases op with
    | setFunction g =>
      apply ih _ _ hclock
      obtain ⟨h1, h2, _, _⟩ := setters_keep_times (p.heap h) g .Low
      simp only [ThreadPool.applyOp, Function.update_same, h1, h2]
      exact ht
    | setPriority q =>
      apply ih _ _ hclock
      obtain ⟨_, _, h1, h2⟩ := setters_keep_times (p.heap h) none q
      simp only [ThreadPool.applyOp, Function.update_same, h1, h2]
      exact ht
    | execute a b =>
      simp only [clockReadings] at hclock
      obtain ⟨hab, hrest⟩ := nonDecreasing_cons_cons a b _ hclock
      apply ih _ _ (nonDecreasing_tail b _ hrest)
      simp only [ThreadPool.applyOp, Function.update_same]
      exact execute_times (p.heap h) a b ht hab
    | addTask =>
      apply ih _ _ hclock
      simp only [ThreadPool.applyOp, addTask_heap]
      by_cases hrun : p.m_running = true <;> simp [hrun, ht]

/-- A difference that fits into 64 bits is not changed by the wrap-around. -/
theorem wrapInt64_of_fits (x : Int) (h0 : 0 ≤ x) (h1 : x < 9223372036854775808) :
    Task.wrapInt64 x = x := by
  unfold Task.wrapInt64
  omega

/-- After `execute` the end timestamp is less than `2^63` ticks after the start
timestamp, if it was before and the call itself took less than `2^63` ticks. -/
theorem execute_span (t : Task) (now₁ now₂ : Int)
    (ht : t.m_endTime - t.m_startTime < 9223372036854775808)
    (hfit : now₂ - now₁ < 9223372036854775808) :
    (t.execute now₁ now₂).task.m_endTime - (t.execute now₁ now₂).task.m_startTime
      < 9223372036854775808 := by
  rcases hf : t.m_function with _ | f
  · rw [execute_of_none t now₁ now₂ hf]
    exact ht
  · rcases hc : f.call with _ | e
    · rw [execute_of_returned t f now₁ now₂ hf hc]
      exact hfit
    · cases e with
      | stdException what =>
        rw [execute_of_stdException t f what now₁ now₂ hf hc]
        exact hfit
      | other =>
        rw [execute_of_other t f now₁ now₂ hf hc]
        exact hfit

/-- Along a sequence of calls whose executions each take less than `2^63`
ticks the end timestamp of the task stays less than `2^63` ticks after its
start timestamp. -/
theorem runOps_span (h : Handle) (ops : List TaskOp) :
    ∀ p : ThreadPool, (p.heap h).m_endTime - (p.heap h).m_startTime < 9223372036854775808 →
      readingsFit ops = true →
      ((p.runOps h ops).heap h).m_endTime - ((p.runOps h ops).heap h).m_startTime
        < 9223372036854775808 := by
  induction ops with
  | nil => intro p ht _; exact ht
  | cons op ops ih =>
    intro p ht hfit
    simp only [ThreadPool.runOps]
    cases op with
    | setFunction g =>
      apply ih _ _ hfit
      obtain ⟨h1, h2, _, _⟩ := setters_keep_times (p.heap h) g .Low
      simp only [ThreadPool.applyOp, Function.update_same, h1, h2]
      exact ht
    | setPriority q =>
      apply ih _ _ hfit
      obtain ⟨_, _, h1, h2⟩ := setters_keep_times (p.heap h) none q
      simp only [ThreadPool.applyOp, Function.update_same, h1, h2]
      exact ht
    | execute a b =>
      simp only [readingsFit, Bool.and_eq_true, decide_eq_true_eq] at hfit
      apply ih _ _ hfit.2
      simp only [ThreadPool.applyOp, Function.update_same]
      exact execute_span (p.heap h) a b ht hfit.1
    | addTask =>
      apply ih _ _ hfit
      simp only [ThreadPool.applyOp, addTask_heap]
      by_cases hrun : p.m_running = true <;> simp [hrun, ht]

/-- One call of `execute` on a task with a body runs the statements `enter`,
`start` and `leave` in this order. -/
theorem execute_eq_stmts (t : Task) (f : Body) (now₁ now₂ : Int)
    (hf : t.m_function = some f) :
    (t.execute now₁ now₂).task = t.stmts [.enter, .start now₁, .leave now₂] := by
  rcases hc : f.call with _ | e
  · rw [execute_of_returned t f now₁ now₂ hf hc]
    simp [Task.stmts, Task.stmt, setStatus_eq, hf, hc]
  · cases e with
    | stdException what =>
      rw [execute_of_stdException t f what now₁ now₂ hf hc]
      simp [Task.stmts, Task.stmt, setStatus_eq, Task.setErrorMessage, hf, hc]
    | other =>
      rw [execute_of_other t f now₁ now₂ hf hc]
      simp [Task.stmts, Task.stmt, setStatus_eq, Task.setErrorMessage, hf, hc]

/-- C11 fails as stated, in two ways, both under a clock that never runs
backwards.  The first task of `main`, submitted twice and claimed by two
workers, is executed by both at the same time: when the second worker writes
its start timestamp after the first one has finished, the task is `Completed`
with a start timestamp later than its end timestamp, and `executionTime()` is
-19.  And a single execution from tick `-2^63` to tick `10^6` makes the 64-bit
subtraction wrap around, and `executionTime()` is -9223372036853. -/
theorem executionTime_negative :
    ((World.mk (examplePool mainHeap 2) []).run doubleSubmission).inFlight = [0, 0] ∧
    nonDecreasing [10, 15, 20000000] = true ∧
    ((((World.mk (examplePool mainHeap 2) []).run doubleSubmission).pool.heap 0).stmts
      overlappingCalls).status = .Completed ∧
    ((((World.mk (examplePool mainHeap 2) []).run doubleSubmission).pool.heap 0).stmts
      overlappingCalls).executionTime = -19 ∧
    nonDecreasing (clockReadings [.execute (-9223372036854775808) 1000000]) = true ∧
    ((mainHeap 0).execute (-9223372036854775808) 1000000).task.status = .Completed ∧
    ((mainHeap 0).execute (-9223372036854775808) 1000000).task.executionTime
      = -9223372036853 := by
  decide

/-- C11, amended: `executionTime()` is 0 while the status is `Created`,
`Queued` or `Running`; in `Completed` and `Failed` it is the 64-bit difference
of the end and the start timestamp in whole milliseconds.  For a task that was
constructed and then went through any sequence of `setFunction`,
`setPriority`, `execute` and `addTask` calls taken one after the other, under
a clock that never runs backwards and with every execution taking less than
`2^63` ticks, a task executed several times or failed for lack of a body
included, that number is not negative, and it is the number of full
milliseconds between the two timestamps. -/
theorem executionTime_nonneg (t : Task) :
    ((t.status = .Created ∨ t.status = .Queued ∨ t.status = .Running) →
      t.executionTime = 0) ∧
    ((t.status = .Completed ∨ t.status = .Failed) →
      t.executionTime = Int.tdiv (Task.wrapInt64 (t.m_endTime - t.m_startTime)) 1000000) ∧
    (∀ (p : ThreadPool) (h : Handle) (f : Option Body) (pr : Priority) (ops : List TaskOp),
      p.heap h = Task.mk2 f pr → nonDecreasing (clockReadings ops) = true →
      readingsFit ops = true →
      0 ≤ ((p.runOps h ops).heap h).executionTime ∧
      (((p.runOps h ops).heap h).status = .Completed ∨
          ((p.runOps h ops).heap h).status = .Failed →
        ((p.runOps h ops).heap h).executionTime * 1000000
          ≤ ((p.runOps h ops).heap h).m_endTime - ((p.runOps h ops).heap h).m_startTime ∧
        ((p.runOps h ops).heap h).m_endTime - ((p.runOps h ops).heap h).m_startTime
          < (((p.runOps h ops).heap h).executionTime + 1) * 1000000)) := by
  refine ⟨?_, ?_, ?_⟩
  · intro hs
    simp only [Task.status] at hs
    unfold Task.executionTime
    rcases hs with hs | hs | hs <;> simp [hs]
  · intro hs
    simp only [Task.status] at hs
    unfold Task.executionTime Task.ticksPerMillisecond
    rcases hs with hs | hs <;> simp [hs]
  · intro p h f pr ops hfresh hclock hfit
    have h0 : (p.heap h).m_startTime ≤ (p.heap h).m_endTime := by
      rw [hfresh]; simp [Task.mk2]
    have h1 : (p.heap h).m_endTime - (p.heap h).m_startTime < 9223372036854775808 := by
      rw [hfresh]; simp [Task.mk2]
    have hle := runOps_times h ops p h0 hclock
    have hlt := runOps_span h ops p h1 hfit
    have hd : 0 ≤ ((p.runOps h ops).heap h).m_endTime
        - ((p.runOps h ops).heap h).m_startTime := by omega
    have hw := wrapInt64_of_fits _ hd hlt
    have htd : Int.tdiv (Task.wrapInt64 (((p.runOps h ops).heap h).m_endTime
          - ((p.runOps h ops).heap h).m_startTime)) 1000000
        = (((p.runOps h ops).heap h).m_endTime
          - ((p.runOps h ops).heap h).m_startTime) / 1000000 := by
      rw [hw]
      exact Int.tdiv_eq_ediv hd (by decide)
    refine ⟨?_, ?_⟩
    · unfold Task.executionTime Task.ticksPerMillisecond
      split
      · exact le_refl _
      · rw [htd]
        exact Int.ediv_nonneg hd (by decide)
    · intro hs
      simp only [Task.status] at hs
      have he : ((p.runOps h ops).heap h).executionTime
          = (((p.runOps h ops).heap h).m_endTime
            - ((p.runOps h ops).heap h).m_startTime) / 1000000 := by
        unfold Task.executionTime Task.ticksPerMillisecond
        rcases hs with hs | hs <;> simp [hs, htd]
      rw [he]
      constructor
      · exact Int.ediv_mul_le _ (by decide)
      · exact Int.lt_ediv_add_one_mul_self _ (by decide)

/-- C11, amended, at a task of `main` that runs from tick 10 to tick 25000010,
is submitted again and runs from tick 30000000 to tick 31000000: the
execution time is 1 ms. -/
theorem executionTime_nonneg_witness :
    (((examplePool mainHeap 1).runOps 0 executedTwice).heap 0).executionTime = 1 ∧
    0 ≤ (((examplePool mainHeap 1).runOps 0 executedTwice).heap 0).executionTime :=
  ⟨by decide,
   ((executionTime_nonneg Task.mk0).2.2 (examplePool mainHeap 1) 0 (some ⟨.returned⟩) .High
      executedTwice (by decide) (by decide) (by decide)).1⟩

/-! ## Construction and shutdown -/

/-- The loop of `initialize` appends one thread handle per round and writes
nothing else. -/
theorem foldl_append_threads (xs : List Nat) :
    ∀ p : ThreadPool,
      xs.foldl (fun p i => { p with m_threads := p.m_threads ++ [i] }) p
        = { p with m_threads := p.m_threads ++ xs } := by
  induction xs with
  | nil => intro p; simp
  | cons x xs ih => intro p; simp [List.foldl_cons, ih]

/-- Construction with a positive number of threads. -/
theorem mk1_of_pos (heap : Handle → Task) (n : Int) (hn : 0 < n) :
    ThreadPool.mk1 heap n =
      { heap := heap, m_threads := List.range n.toNat, m_taskQueue := [], m_condition := [],
        m_running := true, m_activeThreads := 0, m_lastError := "", emitted := [] } := by
  unfold ThreadPool.mk1 ThreadPool.initializeThreads
  rw [if_neg (not_le.2 hn), foldl_append_threads]
  simp

/-- Construction with a non-positive number of threads. -/
theorem mk1_of_nonpos (heap : Handle → Task) (n : Int) (hn : n ≤ 0) :
    ThreadPool.mk1 heap n =
      { heap := heap, m_threads := [], m_taskQueue := [], m_condition := [],
        m_running := true, m_activeThreads := 0,
        m_lastError := "Invalid number of threads",
        emitted := [.errorOccurred "Invalid number of threads"] } := by
  unfold ThreadPool.mk1 ThreadPool.initializeThreads
  rw [if_pos hn]
  simp [ThreadPool.setError]

/-- What `stop` does: the pool afterwards and the threads joined. -/
theorem stop_eq (p : ThreadPool) :
    p.stop = ({ p with
      m_running := false
      m_condition := p.m_condition ++ [.wakeAll]
      m_threads := []
      m_taskQueue := [] }, p.m_threads) := rfl

/-- A pool that is not running rejects every pointer: one `errorOccurred`,
nothing else changes. -/
theorem addTask_stopped (p : ThreadPool) (task : Option Handle) (hrun : p.m_running = false) :
    ∃ msg, p.addTask task
      = (false, { p with m_lastError := msg, emitted := p.emitted ++ [.errorOccurred msg] }) := by
  cases task with
  | none => exact ⟨_, rfl⟩
  | some h => exact ⟨"ThreadPool is not running", by simp [ThreadPool.addTask, hrun, ThreadPool.setError]⟩

/-- Submitting to a pool that is not running leaves it not running, with the
same queue and the same threads. -/
theorem submitAll_stopped (ts : List (Option Handle)) :
    ∀ p : ThreadPool, p.m_running = false →
      (p.submitAll ts).m_running = false ∧
      (p.submitAll ts).m_taskQueue = p.m_taskQueue ∧
      (p.submitAll ts).m_threads = p.m_threads ∧
      (p.submitAll ts).heap = p.heap := by
  induction ts with
  | nil => intro p hrun; exact ⟨hrun, rfl, rfl, rfl⟩
  | cons t ts ih =>
    intro p hrun
    obtain ⟨msg, hmsg⟩ := addTask_stopped p t hrun
    simp only [ThreadPool.submitAll, hmsg]
    exact ih _ hrun

/-- C12: after `stop()`, `isRunning()` is false and `pendingTasks()` and
`threadCount()` are 0; every `addTask` call after it, whatever the pointer and
however many such calls came before, returns `false`, emits one
`errorOccurred` and leaves the queue empty. -/
theorem stop_then_addTask_rejected (p : ThreadPool) :
    p.stop.1.isRunning = false ∧
    p.stop.1.pendingTasks = 0 ∧
    p.stop.1.threadCount = 0 ∧
    (∀ (ts : List (Option Handle)) (task : Option Handle),
      ((p.stop.1.submitAll ts).addTask task).1 = false ∧
      (∃ msg, ((p.stop.1.submitAll ts).addTask task).2.emitted
        = (p.stop.1.submitAll ts).emitted ++ [.errorOccurred msg]) ∧
      ((p.stop.1.submitAll ts).addTask task).2.m_taskQueue = [] ∧
      ((p.stop.1.submitAll ts).addTask task).2.pendingTasks = 0 ∧
      ((p.stop.1.submitAll ts).addTask task).2.isRunning = false ∧
      ((p.stop.1.submitAll ts).addTask task).2.threadCount = 0 ∧
      ((p.stop.1.submitAll ts).addTask task).2.heap = p.heap) := by
  refine ⟨rfl, rfl, rfl, ?_⟩
  intro ts task
  obtain ⟨h1, h2, h3, h4⟩ := submitAll_stopped ts p.stop.1 rfl
  obtain ⟨msg, hmsg⟩ := addTask_stopped (p.stop.1.submitAll ts) task h1
  rw [hmsg]
  simp only [ThreadPool.pendingTasks, ThreadPool.isRunning, ThreadPool.threadCount, h1, h2, h3,
    h4, true_and]
  exact ⟨⟨msg, rfl⟩, rfl, rfl, rfl, rfl⟩

/-- C12 at the pool of `main` with two workers, stopped with three tasks
pending. -/
theorem stop_then_addTask_rejected_witness :
    stoppedPool.isRunning = false ∧ stoppedPool.pendingTasks = 0 ∧
    stoppedPool.threadCount = 0 ∧
    ((stoppedPool.submitAll [some 1, none]).addTask (some 2)).1 = false ∧
    ((stoppedPool.submitAll [some 1, none]).addTask (some 2)).2.m_taskQueue = [] :=
  ⟨by decide, by decide, by decide,
   ((stop_then_addTask_rejected
      ((examplePool mainHeap 2).submitAll [some 8, some 0, some 3])).2.2.2
      [some 1, none] (some 2)).1,
   by decide⟩

/-- C13: a second `stop()` joins no thread and leaves every member as the
first call left it (not running, no thread handle, empty queue, same task
objects, same signals); what it does is one more `wakeAll` on the wait
condition. -/
theorem stop_twice (p : ThreadPool) :
    p.stop.1.stop.2 = [] ∧
    p.stop.1.stop.1 = { p.stop.1 with m_condition := p.stop.1.m_condition ++ [.wakeAll] } ∧
    p.stop.1.stop.1.m_running = p.stop.1.m_running ∧
    p.stop.1.stop.1.m_threads = p.stop.1.m_threads ∧
    p.stop.1.stop.1.m_taskQueue = p.stop.1.m_taskQueue ∧
    p.stop.1.stop.1.m_activeThreads = p.stop.1.m_activeThreads ∧
    p.stop.1.stop.1.m_lastError = p.stop.1.m_lastError ∧
    p.stop.1.stop.1.emitted = p.stop.1.emitted ∧
    p.stop.1.stop.1.heap = p.stop.1.heap ∧
    p.stop.1.stop.1.isRunning = false ∧
    p.stop.1.stop.1.threadCount = 0 ∧
    p.stop.1.stop.1.pendingTasks = 0 :=
  ⟨rfl, rfl, rfl, rfl, rfl, rfl, rfl, rfl, rfl, rfl, rfl, rfl⟩

/-- C13 at the pool of `main` with two workers and three tasks pending: the
first `stop()` joins the two threads, the second none. -/
theorem stop_twice_witness :
    ((examplePool mainHeap 2).submitAll [some 8, some 0, some 3]).stop.2 = [0, 1] ∧
    stoppedPool.stop.2 = [] ∧
    stoppedPool.stop.1.m_taskQueue = [] ∧
    stoppedPool.stop.1.emitted = stoppedPool.emitted :=
  ⟨by decide, (stop_twice ((examplePool mainHeap 2).submitAll [some 8, some 0, some 3])).1,
   by decide, by decide⟩

/-- C14: construction returns a pool for every `numThreads`: for a number that
is not positive it emits the one signal
`errorOccurred("Invalid number of threads")` and `threadCount()` is 0; for a
positive number it emits nothing, `threadCount()` is that number, the thread
handles are the ones created by the loop, and `isRunning()` is true. -/
theorem mk1_threadCount (heap : Handle → Task) (n : Int) :
    (n ≤ 0 →
      (ThreadPool.mk1 heap n).emitted = [.errorOccurred "Invalid number of threads"] ∧
      (ThreadPool.mk1 heap n).threadCount = 0) ∧
    (0 < n →
      (ThreadPool.mk1 heap n).emitted = [] ∧
      (ThreadPool.mk1 heap n).threadCount = n ∧
      (ThreadPool.mk1 heap n).m_threads = List.range n.toNat ∧
      (ThreadPool.mk1 heap n).isRunning = true) ∧
    (ThreadPool.mk1 heap n).pendingTasks = 0 ∧
    (ThreadPool.mk1 heap n).heap = heap := by
  by_cases hn : n ≤ 0
  · rw [mk1_of_nonpos heap n hn]
    exact ⟨fun _ => ⟨rfl, rfl⟩, fun h => absurd h (not_lt.2 hn), rfl, rfl⟩
  · have hp : 0 < n := not_le.1 hn
    rw [mk1_of_pos heap n hp]
    refine ⟨fun h => absurd h hn, fun _ => ⟨rfl, ?_, rfl, rfl⟩, rfl, rfl⟩
    show ((List.range n.toNat).length : Int) = n
    rw [List.length_range]
    exact Int.toNat_of_nonneg (le_of_lt hp)

/-- C14 at the thread counts 3 and -3. -/
theorem mk1_threadCount_witness :
    (ThreadPool.mk1 mainHeap 3).emitted = [] ∧
    (ThreadPool.mk1 mainHeap 3).threadCount = 3 ∧
    (ThreadPool.mk1 mainHeap 3).m_threads = [0, 1, 2] ∧
    (ThreadPool.mk1 mainHeap 3).isRunning = true ∧
    (ThreadPool.mk1 mainHeap (-3)).emitted = [.errorOccurred "Invalid number of threads"] ∧
    (ThreadPool.mk1 mainHeap (-3)).threadCount = 0 :=
  ⟨((mk1_threadCount mainHeap 3).2.1 (by decide)).1,
   ((mk1_threadCount mainHeap 3).2.1 (by decide)).2.1,
   by decide,
   ((mk1_threadCount mainHeap 3).2.1 (by decide)).2.2.2,
   ((mk1_threadCount mainHeap (-3)).1 (by decide)).1,
   ((mk1_threadCount mainHeap (-3)).1 (by decide)).2⟩

/-- C15 fails as stated: a pool constructed with 0 threads has no worker, but
its running flag is true, and `addTask` with a non-null pointer returns `true`,
queues the task and reports no error. -/
theorem addTask_accepted_without_workers :
    (ThreadPool.mk1 mainHeap 0).threadCount = 0 ∧
    (ThreadPool.mk1 mainHeap 0).isRunning = true ∧
    ((ThreadPool.mk1 mainHeap 0).addTask (some 0)).1 = true ∧
    ((ThreadPool.mk1 mainHeap 0).addTask (some 0)).2.m_taskQueue = [0] ∧
    ((ThreadPool.mk1 mainHeap 0).addTask (some 0)).2.emitted
      = (ThreadPool.mk1 mainHeap 0).emitted := by
  decide

/-- C15, amended: a pool constructed with a non-positive thread count has no
worker and its running flag is true; `addTask` on it returns `false` and emits
`errorOccurred` exactly when the pointer is null, and for a non-null pointer it
returns `true`, writes `Queued`, appends the task to the queue and emits
nothing; once `stop()` was called every `addTask` returns `false`. -/
theorem addTask_without_workers (heap : Handle → Task) (n : Int) (task : Option Handle)
    (hn : n ≤ 0) :
    (ThreadPool.mk1 heap n).threadCount = 0 ∧
    (ThreadPool.mk1 heap n).isRunning = true ∧
    (((ThreadPool.mk1 heap n).addTask task).1 = false ↔ task = none) ∧
    (task = none →
      ((ThreadPool.mk1 heap n).addTask task).2.emitted
        = (ThreadPool.mk1 heap n).emitted ++ [.errorOccurred "Cannot add null task"] ∧
      ((ThreadPool.mk1 heap n).addTask task).2.m_taskQueue = []) ∧
    (∀ h, task = some h →
      ((ThreadPool.mk1 heap n).addTask task).1 = true ∧
      ((ThreadPool.mk1 heap n).addTask task).2.m_taskQueue = [h] ∧
      (((ThreadPool.mk1 heap n).addTask task).2.heap h).status = .Queued ∧
      ((ThreadPool.mk1 heap n).addTask task).2.emitted = (ThreadPool.mk1 heap n).emitted) ∧
    ((ThreadPool.mk1 heap n).stop.1.addTask task).1 = false := by
  have hstop : ((ThreadPool.mk1 heap n).stop.1.addTask task).1 = false := by
    obtain ⟨msg, hmsg⟩ := addTask_stopped (ThreadPool.mk1 heap n).stop.1 task rfl
    rw [hmsg]
  refine ⟨?_, ?_, ?_, ?_, ?_, hstop⟩
  · rw [mk1_of_nonpos heap n hn]; rfl
  · rw [mk1_of_nonpos heap n hn]; rfl
  · rw [mk1_of_nonpos heap n hn]
    cases task with
    | none => simp [ThreadPool.addTask]
    | some h => simp [ThreadPool.addTask]
  · intro ht
    subst ht
    rw [mk1_of_nonpos heap n hn]
    exact ⟨rfl, rfl⟩
  · intro h ht
    subst ht
    rw [mk1_of_nonpos heap n hn, addTask_running _ h rfl]
    simp [Task.status]

/-- C15, amended, at the thread count -3 and the first task of `main`. -/
theorem addTask_without_workers_witness :
    (ThreadPool.mk1 mainHeap (-3)).threadCount = 0 ∧
    (ThreadPool.mk1 mainHeap (-3)).isRunning = true ∧
    ((ThreadPool.mk1 mainHeap (-3)).addTask (some 0)).1 = true ∧
    ((ThreadPool.mk1 mainHeap (-3)).addTask (some 0)).2.m_taskQueue = [0] ∧
    ((ThreadPool.mk1 mainHeap (-3)).stop.1.addTask (some 0)).1 = false :=
  ⟨(addTask_without_workers mainHeap (-3) (some 0) (by decide)).1,
   (addTask_without_workers mainHeap (-3) (some 0) (by decide)).2.1,
   by decide, by decide,
   (addTask_without_workers mainHeap (-3) (some 0) (by decide)).2.2.2.2.2⟩

/-! ## The worker loop -/

/-- No exception leaves `execute`. -/
theorem execute_raised (t : Task) (now₁ now₂ : Int) : (t.execute now₁ now₂).raised = none := by
  rcases hf : t.m_function with _ | f
  · rw [execute_of_none t now₁ now₂ hf]
  · rcases hc : f.call with _ | e
    · rw [execute_of_returned t f now₁ now₂ hf hc]
    · cases e with
      | stdException what => rw [execute_of_stdException t f what now₁ now₂ hf hc]
      | other => rw [execute_of_other t f now₁ now₂ hf hc]

/-- The executing step of a worker: the task object is the one `execute`
leaves, `taskCompleted` is emitted, the counter of active threads goes up and
down again. -/
theorem workerExecute_some (p : ThreadPool) (h : Handle) (now₁ now₂ : Int) :
    (p.workerExecute (some h) now₁ now₂).1 =
      { p with
        heap := Function.update p.heap h ((p.heap h).execute now₁ now₂).task
        emitted := p.emitted ++ [.taskCompleted h]
        m_activeThreads := p.m_activeThreads + 1 - 1 } := by
  simp [ThreadPool.workerExecute, execute_raised]

/-- C17: when the running flag is false, a worker at the head of its loop or
returning from `wait` leaves the loop and the pool is as before: nothing is
taken from the queue, also when it is not empty, and no task object and no
counter changes.  A worker that holds a task claimed earlier finishes it and
leaves the loop with its next step.  No step of any worker changes the queue
or the counter of active threads. -/
theorem worker_exits_when_not_running (p : ThreadPool) (now₁ now₂ : Int)
    (hrun : p.m_running = false) :
    p.workerStep .loopHead now₁ now₂ = (.exited, p) ∧
    p.workerStep .waiting now₁ now₂ = (.exited, p) ∧
    (∀ w : Worker,
      (p.workerStep w now₁ now₂).2.m_taskQueue = p.m_taskQueue ∧
      (p.workerStep w now₁ now₂).2.m_activeThreads = p.m_activeThreads ∧
      (p.workerStep w now₁ now₂).2.m_running = false ∧
      (p.workerStep w now₁ now₂).1 ≠ .waiting ∧
      ∀ task, (p.workerStep w now₁ now₂).1 ≠ .executing task) ∧
    (∀ task,
      (p.workerStep (.executing task) now₁ now₂).1 = .loopHead ∧
      ((p.workerStep (.executing task) now₁ now₂).2.workerStep .loopHead now₁ now₂).1
        = .exited) := by
  have h1 : p.workerStep .loopHead now₁ now₂ = (.exited, p) := by
    simp [ThreadPool.workerStep, hrun]
  have h2 : p.workerStep .waiting now₁ now₂ = (.exited, p) := by
    simp [ThreadPool.workerStep, ThreadPool.workerWait, hrun]
  refine ⟨h1, h2, ?_, ?_⟩
  · intro w
    cases w with
    | loopHead => rw [h1]; simp [hrun]
    | waiting => rw [h2]; simp [hrun]
    | executing task =>
      simp only [ThreadPool.workerStep, workerExecute_some]
      simp [hrun]
    | exited => simp [ThreadPool.workerStep, hrun]
  · intro task
    simp only [ThreadPool.workerStep, workerExecute_some]
    simp [hrun]

/-- C17 at the queue `[8, 0, 3, 2]` with the running flag false. -/
theorem worker_exits_when_not_running_witness :
    shutdownSignalled.m_taskQueue = [8, 0, 3, 2] ∧
    shutdownSignalled.workerStep .loopHead 0 5 = (.exited, shutdownSignalled) ∧
    shutdownSignalled.workerStep .waiting 0 5 = (.exited, shutdownSignalled) ∧
    (exampleQueue.workerStep .waiting 0 5).1 = .executing 0 :=
  ⟨by decide,
   (worker_exits_when_not_running shutdownSignalled 0 5 rfl).1,
   (worker_exits_when_not_running shutdownSignalled 0 5 rfl).2.1,
   by decide⟩

/-- C18: on a non-empty queue `getNextTask` returns the entry at the smallest
position whose priority is greatest: no entry has a greater priority and every
earlier entry has a smaller one.  The position it removes is that position,
and removing the first entry equal to the returned handle, as `removeOne`
does, gives the same queue, also when the handle occurs several times. -/
theorem getNextTask_first_of_greatest (p : ThreadPool) (hne : p.m_taskQueue ≠ []) :
    ∃ t i, p.getNextTask.1 = some t ∧
      p.m_taskQueue[i]? = some t ∧
      (∀ u ∈ p.m_taskQueue, (p.heap u).priority.toInt ≤ (p.heap t).priority.toInt) ∧
      (∀ j u, j < i → p.m_taskQueue[j]? = some u →
        (p.heap u).priority.toInt < (p.heap t).priority.toInt) ∧
      p.getNextTask.2.m_taskQueue = p.m_taskQueue.eraseIdx i ∧
      p.m_taskQueue.erase t = p.m_taskQueue.eraseIdx i ∧
      (∀ j, j < i → p.getNextTask.2.m_taskQueue[j]? = p.m_taskQueue[j]?) ∧
      (∀ j, i ≤ j → p.getNextTask.2.m_taskQueue[j]? = p.m_taskQueue[j + 1]?) := by
  obtain ⟨t, hget, hmax, hfirst, heq⟩ := getNextTask_of_ne_nil p hne
  have herase : p.m_taskQueue.erase t
      = p.m_taskQueue.eraseIdx (max_element p.priorityLess p.m_taskQueue) := by
    apply erase_eq_eraseIdx_of_first t _ _ hget
    intro j hj hjt
    exact lt_irrefl _ (hfirst j t hj hjt)
  refine ⟨t, _, ?_, hget, hmax, hfirst, ?_, herase, ?_, ?_⟩
  · rw [heq]
  · rw [heq]
  · intro j hj
    rw [heq]
    simp only [List.getElem?_eraseIdx, hj, if_true]
  · intro j hj
    rw [heq]
    simp only [List.getElem?_eraseIdx, not_lt.2 hj, if_false]

/-- C18 at the queue `[8, 0, 3, 0]`, in which the `High` task 0 is pending
twice: the entry at position 1 is returned and removed, the one at position 3
stays. -/
theorem getNextTask_first_of_greatest_witness :
    duplicateQueue.getNextTask.1 = some 0 ∧
    duplicateQueue.getNextTask.2.m_taskQueue = [8, 3, 0] ∧
    ∃ t i, duplicateQueue.getNextTask.1 = some t ∧
      duplicateQueue.m_taskQueue[i]? = some t ∧
      (∀ u ∈ duplicateQueue.m_taskQueue,
        (duplicateQueue.heap u).priority.toInt ≤ (duplicateQueue.heap t).priority.toInt) ∧
      (∀ j u, j < i → duplicateQueue.m_taskQueue[j]? = some u →
        (duplicateQueue.heap u).priority.toInt < (duplicateQueue.heap t).priority.toInt) ∧
      duplicateQueue.getNextTask.2.m_taskQueue = duplicateQueue.m_taskQueue.eraseIdx i ∧
      duplicateQueue.m_taskQueue.erase t = duplicateQueue.m_taskQueue.eraseIdx i ∧
      (∀ j, j < i → duplicateQueue.getNextTask.2.m_taskQueue[j]? = duplicateQueue.m_taskQueue[j]?) ∧
      (∀ j, i ≤ j →
        duplicateQueue.getNextTask.2.m_taskQueue[j]? = duplicateQueue.m_taskQueue[j + 1]?) :=
  ⟨by decide, by decide, getNextTask_first_of_greatest duplicateQueue (by decide)⟩

/-! ## Pending and in-flight tasks -/

/-- One event keeps the pending and in-flight handles free of duplicates,
provided a submitted handle is neither pending nor in flight. -/
theorem step_held_nodup (w : World) (e : PoolEvent) (hnd : w.held.Nodup)
    (hfresh : ∀ h, e = .submit (some h) → h ∉ w.held) : (w.step e).held.Nodup := by
  cases e with
  | submit task =>
    cases task with
    | none => simpa [World.step, World.held, ThreadPool.addTask, ThreadPool.setError] using hnd
    | some h =>
      by_cases hrun : w.pool.m_running = true
      · have hh : h ∉ w.pool.m_taskQueue ++ w.inFlight := hfresh h rfl
        have hperm : List.Perm (w.pool.m_taskQueue ++ [h] ++ w.inFlight)
            (h :: (w.pool.m_taskQueue ++ w.inFlight)) := by
          simp
        simp only [World.step, World.held, addTask_running w.pool h hrun]
        exact hperm.nodup_iff.2 (List.nodup_cons.2 ⟨hh, hnd⟩)
      · have hrun2 : w.pool.m_running = false := by simpa using hrun
        obtain ⟨msg, hmsg⟩ := addTask_stopped w.pool (some h) hrun2
        simpa [World.step, World.held, hmsg] using hnd
  | claim =>
    by_cases hq : w.pool.m_taskQueue = []
    · simpa [World.step, World.held, getNextTask_of_nil w.pool hq] using hnd
    · obtain ⟨t, hget, _, hfirst, heq⟩ := getNextTask_of_ne_nil w.pool hq
      have herase : w.pool.m_taskQueue.erase t
          = w.pool.m_taskQueue.eraseIdx (max_element w.pool.priorityLess w.pool.m_taskQueue) := by
        apply erase_eq_eraseIdx_of_first t _ _ hget
        intro j hj hjt
        exact lt_irrefl _ (hfirst j t hj hjt)
      have hperm1 : List.Perm w.pool.m_taskQueue (t :: w.pool.m_taskQueue.erase t) :=
        List.perm_cons_erase (List.getElem?_mem hget)
      have hperm : List.Perm (w.pool.m_taskQueue.erase t ++ (w.inFlight ++ [t]))
          (w.pool.m_taskQueue ++ w.inFlight) := by
        have h1 : List.Perm (w.pool.m_taskQueue.erase t ++ (w.inFlight ++ [t]))
            (t :: (w.pool.m_taskQueue.erase t ++ w.inFlight)) := by
          rw [← List.append_assoc]
          exact List.perm_append_singleton t _
        exact h1.trans ((hperm1.append_right w.inFlight).symm)
      simp only [World.step, World.held, heq, ← herase]
      exact hperm.nodup_iff.2 hnd
  | complete task now₁ now₂ =>
    by_cases hin : task ∈ w.inFlight
    · simp only [World.step, World.held, hin, if_true, workerExecute_some]
      exact hnd.sublist ((List.Sublist.refl _).append (List.erase_sublist task w.inFlight))
    · simpa [World.step, hin] using hnd

/-- C16 fails as stated: `addTask` accepts a task that is already pending, so
after two submissions of task 0 the queue holds it twice, and two workers that
claim one after the other both hold task 0. -/
theorem same_task_claimed_twice :
    ((World.mk (examplePool mainHeap 2) []).run [.submit (some 0), .submit (some 0)]).pool.m_taskQueue
      = [0, 0] ∧
    ((World.mk (examplePool mainHeap 2) []).run
        [.submit (some 0), .submit (some 0), .claim]).held = [0, 0] ∧
    ((World.mk (examplePool mainHeap 2) []).run doubleSubmission).inFlight = [0, 0] ∧
    ¬ ((World.mk (examplePool mainHeap 2) []).run doubleSubmission).held.Nodup := by
  decide

/-- C16, amended: if no task is submitted while it is pending or in flight,
then in every state reached by submissions, claims and completions no handle
is pending twice, in flight twice, or pending and in flight at once. -/
theorem held_nodup_when_submitted_fresh (es : List PoolEvent) :
    ∀ w : World, w.held.Nodup → w.submitsFresh es = true → (w.run es).held.Nodup := by
  induction es with
  | nil => intro w hnd _; exact hnd
  | cons e es ih =>
    intro w hnd hfresh
    simp only [World.submitsFresh, Bool.and_eq_true] at hfresh
    obtain ⟨he, hrest⟩ := hfresh
    simp only [World.run]
    apply ih _ _ hrest
    apply step_held_nodup w e hnd
    intro h heq
    subst heq
    simpa using he

/-- C16, amended, at a run in which task 0 is submitted again only after its
first execution completed. -/
theorem held_nodup_when_submitted_fresh_witness :
    ((World.mk (examplePool mainHeap 2) []).run freshSubmissions).held = [8, 0, 3] ∧
    ((World.mk (examplePool mainHeap 2) []).run freshSubmissions).held.Nodup :=
  ⟨by decide,
   held_nodup_when_submitted_fresh freshSubmissions (World.mk (examplePool mainHeap 2) [])
     (by decide) (by decide)⟩

end ProjectTest
